import Mathlib

/-!
Verification of the cached garment-classification subsystem
(`backend/services/garment.py`, `backend/core/redis.py`, `backend/config.py`).

The Python code is shallowly embedded: pure helpers become Lean functions;
the stateful orchestrator `classify_garment_type` becomes an explicit
state-passing function parameterized by an oracle describing every
collaborator behaviour (remote store results or failures, classifier result
or failure); the connection supervisor becomes a step relation on its state.

Embedding conventions, stated once:
 - `hashlib.sha256(...).hexdigest()` is an external library call; the model
   takes the already-computed digest string as input (`imageHash`), since the
   code only ever treats it as an opaque deterministic string.
 - `json.dumps`/`json.loads` (Python standard library) are modelled at the
   JSON-value-tree level: a value this system serialises is parsed back to
   the same tree (the stdlib guarantee for the ASCII-compact encoding used);
   unparseable raw data is modelled as the tree being absent.
 - Times are naturals (`loop.time()` is a nonnegative monotonic clock); in
   the orchestrator model the clock advances only at the follower-wait sleep
   (0.1 s rounds), the only place the code sleeps.
 - Exceptions of remote operations are modelled by an explicit error case
   (`RResult.err`); `asyncio` mutexes by acquire/release events in a trace.
-/

namespace VintedBoost

/-- JSON values, the shape of data exchanged with the remote store
(`json.dumps`/`json.loads` both operate on such trees). -/
inductive JsonValue : Type
  | str (s : String)
  | num (n : Int)
  | bool (b : Bool)
  | null
  | arr (xs : List JsonValue)
  | obj (fields : List (String × JsonValue))

/-- Python `payload.get(key)` on a JSON dict (our writes use unique keys). -/
def jsonGet : JsonValue → String → Option JsonValue
  | .obj fields, k => fields.lookup k
  | _, _ => none

/-- Python `payload[key] = v` on a JSON dict: replace the first binding of `key`
(Python dicts keep the original insertion position on update). -/
def jsonSet : JsonValue → String → JsonValue → JsonValue
  | .obj fields, k, v => .obj (setFieldAux fields k v)
  | j, _, _ => j
where
  setFieldAux : List (String × JsonValue) → String → JsonValue → List (String × JsonValue)
    | [], k, v => [(k, v)]
    | (k', v') :: rest, k, v =>
        if k' = k then (k, v) :: rest else (k', v') :: setFieldAux rest k v

/-- Whitespace for Python's `str.strip()` (the ASCII cases). -/
def isPyWhitespace (c : Char) : Bool :=
  c = ' ' ∨ c = '\t' ∨ c = '\n' ∨ c = '\x0d' ∨ c = '\x0b' ∨ c = '\x0c'

/-- Python's `str.lower()` on one character (the ASCII case). -/
def charToLower (c : Char) : Char :=
  if 65 ≤ c.toNat ∧ c.toNat ≤ 90 then Char.ofNat (c.toNat + 32) else c

def dropLeadingWs : List Char → List Char
  | [] => []
  | c :: cs => if isPyWhitespace c then dropLeadingWs cs else c :: cs

/-- Python's `label.strip().lower()`. -/
def pyStripLower (label : String) : String :=
  let cs := label.toList.map charToLower
  ⟨(dropLeadingWs (dropLeadingWs cs).reverse).reverse⟩

/-- Does the list start with the given pattern? -/
def listStartsWith : List Char → List Char → Bool
  | _, [] => true
  | [], _ :: _ => false
  | a :: as, b :: bs => a = b && listStartsWith as bs

/-- Does the pattern occur contiguously in the list? -/
def listHasSub : List Char → List Char → Bool
  | [], k => k.isEmpty
  | a :: as, k => listStartsWith (a :: as) k || listHasSub as k

/-- Substring containment, Python's `k in s` on lowercase-trimmed strings. -/
def strContains (s k : String) : Bool := listHasSub s.toList k.toList

/-- Keywords mapped to "full" by `_normalize_garment_type` (garment.py:160-175). -/
def onePieceKeywords : List String :=
  ["dress", "jumpsuit", "romper", "boilersuit", "overalls", "pinafore",
   "catsuit", "unitard", "one-piece", "one piece"]

/-- Keywords mapped to "bottom" (garment.py:176-177). -/
def bottomKeywords : List String :=
  ["jeans", "pants", "trousers", "shorts", "skirt", "leggings", "bottom"]

/-- Keywords mapped to "top" (garment.py:178-196). -/
def topKeywords : List String :=
  ["t-shirt", "tshirt", "shirt", "blouse", "sweater", "jumper", "hoodie",
   "cardigan", "jacket", "coat", "vest", "bodysuit", "top"]

/-- Function `_normalize_garment_type` (garment.py:156-197): strip+lowercase, exact
label match first, then one-piece, bottom, top keyword heuristics, else None. -/
def normalizeGarmentType (label : String) : Option String :=
  let s := pyStripLower label
  if s = "top" ∨ s = "bottom" ∨ s = "full" then some s
  else if onePieceKeywords.any (fun k => strContains s k) then some "full"
  else if bottomKeywords.any (fun k => strContains s k) then some "bottom"
  else if topKeywords.any (fun k => strContains s k) then some "top"
  else none

/-- The valid label set returned by the subsystem. -/
def validLabels : List String := ["top", "bottom", "full"]

/-- Function `_build_cache_payload` (garment.py:46-52): the JSON dict
`{"type": t, "origin": o, "ts": ts, "model_id": MODEL}`. -/
def buildCachePayload (garmentType origin : String) (ts : Int) (model : String) : JsonValue :=
  .obj [("type", .str garmentType), ("origin", .str origin),
        ("ts", .num ts), ("model_id", .str model)]

/-- Function `_decode_cache_payload` (garment.py:80-100) on the parse result of the raw
value: `none` is a raw `None` (miss); `some none` is raw data `json.loads`
rejects; `some (some j)` is a parsed tree. Returns the dict with a normalized
`type`, or `none` for any malformed shape. -/
def decodeCachePayload : Option (Option JsonValue) → Option JsonValue
  | none => none
  | some none => none
  | some (some j) =>
    match jsonGet j "type" with
    | some (.str t) =>
      match normalizeGarmentType t with
      | some n => some (jsonSet j "type" (.str n))
      | none => none
    | _ => none

/-- Python `payload["type"]` on a decoded payload (always present and a string for
anything `decodeCachePayload` accepts). -/
def payloadType (p : JsonValue) : String :=
  match jsonGet p "type" with
  | some (.str t) => t
  | _ => ""

/-- Function `_cache_key` (garment.py:38-39): `"{ns}:{version}:{imageHash}"`, with
`ns = GARMENT_TYPE_CACHE_PREFIX` and `version = GARMENT_TYPE_CACHE_VERSION`. -/
def cache_key (ns version imageHash : String) : String :=
  ns ++ ":" ++ version ++ ":" ++ imageHash

/-- Function `_lock_key` (garment.py:42-43): `"{ns}:lock:{version}:{imageHash}"`. -/
def lock_key (ns version imageHash : String) : String :=
  ns ++ ":lock:" ++ version ++ ":" ++ imageHash

/-! ### `_redis_execute` (garment.py:64-77)

One attempt is `await asyncio.wait_for(fn(), timeout)`: it either produces a
value (which may itself be `None`, a genuine miss) or raises. The oracle
`outcomes i` gives the result of the `i`-th attempt. The model returns the
final result together with the number of attempts actually made. -/
/-- The retry loop of `_redis_execute` with `rem` attempts remaining
(called with `rem ≥ 1`); on the last attempt the code re-raises the error. -/
def redisExecuteAux {ε α : Type} (outcomes : Nat → Except ε α) (i : Nat) :
    Nat → Except ε α × Nat
  | 0 => (outcomes i, 1)
  | 1 => (outcomes i, 1)
  | rem + 2 =>
    match outcomes i with
    | .ok a => (.ok a, 1)
    | .error _ =>
      let r := redisExecuteAux outcomes (i + 1) (rem + 1)
      (r.1, r.2 + 1)

/-- Function `_redis_execute` with `REDIS_OPERATION_RETRIES = retries`:
`attempts = max(1, retries + 1)` (garment.py:65). -/
def redisExecute {ε α : Type} (outcomes : Nat → Except ε α) (retries : Nat) :
    Except ε α × Nat :=
  redisExecuteAux outcomes 0 (max 1 (retries + 1))

/-! ### Connection supervisor (`backend/core/redis.py`)

State: the module globals `_redis_client` (an opaque handle) and
`_redis_retry_at`. `get_redis_client` is modelled as one atomic step (the
double-checked locking collapses under atomicity); the outcome of the
`from_url` + `ping` handshake is the oracle bit `connectOk`. -/
structure RedisState where
  client : Option Unit
  retryAt : Option Nat

structure RedisConfig where
  urlConfigured : Bool
  backoff : Nat

/-- Python `if _redis_retry_at and now < _redis_retry_at` (redis.py:36):
the stored timestamp must be truthy (nonzero) and in the future. -/
def backoffActive (s : RedisState) (now : Nat) : Bool :=
  match s.retryAt with
  | some r => decide (0 < r) && decide (now < r)
  | none => false

/-- Function `get_redis_client` (redis.py:26-68). Returns
(result, whether a connection attempt was made, new state). -/
def getRedisClient (cfg : RedisConfig) (connectOk : Bool) (now : Nat) (s : RedisState) :
    Option Unit × Bool × RedisState :=
  if ¬cfg.urlConfigured then (none, false, s)
  else if s.client.isSome then (s.client, false, s)
  else if backoffActive s now then (none, false, s)
  else if connectOk then (some (), true, { client := some (), retryAt := none })
  else (none, true, { client := none, retryAt := some (now + cfg.backoff) })

/-- Function `record_redis_failure` (redis.py:71-84): re-arm backoff, drop the handle. -/
def recordRedisFailure (cfg : RedisConfig) (now : Nat) (_s : RedisState) : RedisState :=
  { client := none, retryAt := some (now + cfg.backoff) }

/-- Function `close_redis_client` (redis.py:87-97). -/
def closeRedisClient (s : RedisState) : RedisState :=
  { s with client := none }

/-- One operation of the supervisor. -/
inductive RedisStep (cfg : RedisConfig) : RedisState → RedisState → Prop
  | get (s : RedisState) (connectOk : Bool) (now : Nat) :
      RedisStep cfg s (getRedisClient cfg connectOk now s).2.2
  | fail (s : RedisState) (now : Nat) :
      RedisStep cfg s (recordRedisFailure cfg now s)
  | close (s : RedisState) :
      RedisStep cfg s (closeRedisClient s)

/-- States reachable from module initialisation (both globals `None`). -/
inductive RedisReachable (cfg : RedisConfig) : RedisState → Prop
  | init : RedisReachable cfg ⟨none, none⟩
  | step {s s' : RedisState} :
      RedisReachable cfg s → RedisStep cfg s s' → RedisReachable cfg s'

/-! ### `_wait_for_redis_payload` (garment.py:128-153)

One loop iteration performs: a cache GET (decoded), then — on a miss — an
EXISTS on the lock key, then — if the lock is still there — a 100 ms sleep.
The oracle `rounds i` gives the remote results seen by iteration `i`; time is
counted in sleep-ticks, so the `now < deadline` guard becomes positive fuel
(`fuel = deadline - now` in ticks) and each sleep consumes one unit. -/
structure WaitRound where
  getRaw : Except Unit (Option (Option JsonValue))
  lockExists : Except Unit Bool
  finalGetRaw : Except Unit (Option (Option JsonValue))

inductive WEvent : Type
  | cacheRead
  | existsCheck
  | finalRead
  | recordFailure
deriving DecidableEq, Repr

structure WaitOutcome where
  payload : Option JsonValue
  events : List WEvent
  ticks : Nat

/-- The polling loop of `_wait_for_redis_payload`, iteration index `i`,
`fuel` sleep-ticks left before the deadline. -/
def waitForRedisPayload (rounds : Nat → WaitRound) (i : Nat) : Nat → WaitOutcome
  | 0 => ⟨none, [], 0⟩
  | fuel + 1 =>
    let r := rounds i
    match r.getRaw with
    | .error _ => ⟨none, [.cacheRead, .recordFailure], 0⟩
    | .ok raw =>
      match decodeCachePayload raw with
      | some p => ⟨some p, [.cacheRead], 0⟩
      | none =>
        match r.lockExists with
        | .error _ => ⟨none, [.cacheRead, .existsCheck, .recordFailure], 0⟩
        | .ok true =>
          let rest := waitForRedisPayload rounds (i + 1) fuel
          ⟨rest.payload, .cacheRead :: .existsCheck :: rest.events, rest.ticks + 1⟩
        | .ok false =>
          match r.finalGetRaw with
          | .error _ => ⟨none, [.cacheRead, .existsCheck, .finalRead, .recordFailure], 0⟩
          | .ok raw2 => ⟨decodeCachePayload raw2, [.cacheRead, .existsCheck, .finalRead], 0⟩

/-- An iteration that neither returns nor errors: cache miss, lock present. -/
def missRound (r : WaitRound) : Prop :=
  (∃ raw, r.getRaw = .ok raw ∧ decodeCachePayload raw = none) ∧ r.lockExists = .ok true

/-! ### `classify_garment_type` (garment.py:200-329)

The orchestrator, embedded as explicit state passing. The state is the L1
map `_garment_type_cache`; the oracle fixes the behaviour of every
collaborator call (`get_redis_client`, remote GET/SET/lock operations, the
classifier, `time.time()`). Every `except` clause of the source is an
explicit `.error` branch here, so the embedding is total: the Python
function can only raise if some uncaught expression raises, and every
awaited collaborator is wrapped. A trace of events records the effects. -/
structure GarmentEnv where
  ttl : Nat
  classifyEnabled : Bool
  lockWaitTicks : Nat
  model : String

structure GarmentOracle where
  redisAvailable : Bool
  initialGet : Except Unit (Option (Option JsonValue))
  lockAcquire : Except Unit Bool
  waitRounds : Nat → WaitRound
  recheckGet : Except Unit (Option (Option JsonValue))
  classifierText : Except Unit (Option String)
  wallTs : Int
  setOutcome : Except Unit Unit
  releaseOutcome : Except Unit Unit

structure GarmentState where
  l1 : String → Option (Nat × JsonValue)

inductive GEvent : Type
  | remoteGet
  | remoteLockAttempt
  | localLockAcquire
  | followerWait
  | classifierCall
  | l1Write
  | remoteSet
  | remoteLockRelease
  | localLockRelease
  | recordFailure
deriving DecidableEq, Repr

structure ClassifyResult where
  result : String
  state : GarmentState
  clock : Nat
  events : List GEvent

/-- Python `_garment_type_cache[image_hash] = (expiry, payload)`. -/
def writeL1 (st : GarmentState) (digest : String) (expiry : Nat) (p : JsonValue) :
    GarmentState :=
  ⟨fun d => if d = digest then some (expiry, p) else st.l1 d⟩

/-- The L1 probe (garment.py:212-214): entry present and `expiry > now`. -/
def l1Lookup (st : GarmentState) (digest : String) (now : Nat) : Option JsonValue :=
  match st.l1 digest with
  | some ep => if now < ep.1 then some ep.2 else none
  | none => none

/-- Lines 292-309: the classifier call and normalization. The oracle's
`classifierText` is the extracted `label_text` (`none` when no candidate had
text); `.error` is the classifier raising, mapped to "full". -/
def classifierLabel (o : GarmentOracle) : String :=
  match o.classifierText with
  | .error _ => "full"
  | .ok labelText => (normalizeGarmentType (labelText.getD "")).getD "full"

/-- Lines 283-321: invoke the classifier (its failure maps to "full"),
build the payload, write L1, best-effort remote SET. `redisAlive` is the
value of the local `redis_client` variable at this point. -/
def computePhase (env : GarmentEnv) (o : GarmentOracle) (digest : String)
    (redisAlive : Bool) (clock : Nat) (st : GarmentState) :
    String × GarmentState × List GEvent :=
  let garmentType := classifierLabel o
  let payload := buildCachePayload garmentType "classifier" o.wallTs env.model
  let st1 := if 0 < env.ttl then writeL1 st digest (clock + env.ttl) payload else st
  let ev1 : List GEvent := if 0 < env.ttl then [.l1Write] else []
  let ev2 : List GEvent :=
    if redisAlive ∧ 0 < env.ttl then
      match o.setOutcome with
      | .ok _ => [.remoteSet]
      | .error _ => [.remoteSet, .recordFailure]
    else []
  (garmentType, st1, .classifierCall :: (ev1 ++ ev2))

/-- Lines 263-321 (inside the `try`, after the locking decisions): L1
recheck, remote recheck, then the compute phase. -/
def afterLockPhase (env : GarmentEnv) (o : GarmentOracle) (digest : String)
    (redisAlive : Bool) (clock : Nat) (st : GarmentState) :
    String × GarmentState × List GEvent :=
  match l1Lookup st digest clock with
  | some p => (payloadType p, st, [])
  | none =>
    if redisAlive then
      match o.recheckGet with
      | .error _ =>
        let r := computePhase env o digest false clock st
        (r.1, r.2.1, .remoteGet :: .recordFailure :: r.2.2)
      | .ok raw =>
        match decodeCachePayload raw with
        | some p =>
          if 0 < env.ttl then
            (payloadType p, writeL1 st digest (clock + env.ttl) p, [.remoteGet, .l1Write])
          else (payloadType p, st, [.remoteGet])
        | none =>
          let r := computePhase env o digest true clock st
          (r.1, r.2.1, .remoteGet :: r.2.2)
    else computePhase env o digest false clock st

/-- Lines 233-329: the `try`/`finally` block. Distributed-lock attempt when
a handle is live, follower wait on contention, local singleflight mutex when
the distributed lock is not held, and the guaranteed-cleanup releases. -/
def lockAndComputePhase (env : GarmentEnv) (o : GarmentOracle) (digest : String)
    (redisAlive0 : Bool) (t0 : Nat) (st : GarmentState) : ClassifyResult :=
  if redisAlive0 then
    match o.lockAcquire with
    | .error _ =>
      let r := afterLockPhase env o digest false t0 st
      ⟨r.1, r.2.1, t0,
        [.remoteLockAttempt, .recordFailure, .localLockAcquire]
          ++ r.2.2 ++ [.localLockRelease]⟩
    | .ok true =>
      let r := afterLockPhase env o digest true t0 st
      ⟨r.1, r.2.1, t0, [.remoteLockAttempt] ++ r.2.2 ++ [.remoteLockRelease]⟩
    | .ok false =>
      let w := waitForRedisPayload o.waitRounds 0 env.lockWaitTicks
      let clock1 := t0 + w.ticks
      match w.payload with
      | some p =>
        if 0 < env.ttl then
          ⟨payloadType p, writeL1 st digest (clock1 + env.ttl) p, clock1,
            [.remoteLockAttempt, .followerWait, .l1Write]⟩
        else ⟨payloadType p, st, clock1, [.remoteLockAttempt, .followerWait]⟩
      | none =>
        let r := afterLockPhase env o digest true clock1 st
        ⟨r.1, r.2.1, clock1,
          [.remoteLockAttempt, .followerWait, .localLockAcquire]
            ++ r.2.2 ++ [.localLockRelease]⟩
  else
    let r := afterLockPhase env o digest false t0 st
    ⟨r.1, r.2.1, t0, [.localLockAcquire] ++ r.2.2 ++ [.localLockRelease]⟩

/-- Function `classify_garment_type` after the override check (garment.py:206-329):
feature flag, L1 probe, `get_redis_client`, initial remote GET, then the
lock-and-compute phase. -/
def classifyMain (env : GarmentEnv) (o : GarmentOracle) (digest : String)
    (t0 : Nat) (st : GarmentState) : ClassifyResult :=
  if env.classifyEnabled = false then ⟨"full", st, t0, []⟩
  else
    match l1Lookup st digest t0 with
    | some p => ⟨payloadType p, st, t0, []⟩
    | none =>
      if o.redisAvailable then
        if 0 < env.ttl then
          match o.initialGet with
          | .error _ =>
            let r := lockAndComputePhase env o digest false t0 st
            ⟨r.result, r.state, r.clock, .remoteGet :: .recordFailure :: r.events⟩
          | .ok raw =>
            match decodeCachePayload raw with
            | some p =>
              ⟨payloadType p, writeL1 st digest (t0 + env.ttl) p, t0,
                [.remoteGet, .l1Write]⟩
            | none =>
              let r := lockAndComputePhase env o digest true t0 st
              ⟨r.result, r.state, r.clock, .remoteGet :: r.events⟩
        else lockAndComputePhase env o digest true t0 st
      else lockAndComputePhase env o digest false t0 st

/-- Function `classify_garment_type` (garment.py:200-329). `digest` is the
`sha256` hex digest of the input bytes (`_hash_bytes`, an external-library
call), `t0` the loop clock at entry, `st` the L1 state. Lines 203-205:
a truthy override that normalizes to a valid label returns immediately. -/
def classifyGarmentType (env : GarmentEnv) (o : GarmentOracle) (digest : String)
    (override : Option String) (t0 : Nat) (st : GarmentState) : ClassifyResult :=
  let normalizedOverride : Option String :=
    match override with
    | some ov => if ov = "" then none else normalizeGarmentType ov
    | none => none
  match normalizedOverride with
  | some n => ⟨n, st, t0, []⟩
  | none => classifyMain env o digest t0 st

/-! ### Well-formedness of the L1 map and label validity -/
/-- Every payload stored in the L1 map carries a valid label: true of the
empty initial map and preserved by the subsystem, which only stores decoded
or self-built payloads. -/
def GStateWF (st : GarmentState) : Prop :=
  ∀ d e p, st.l1 d = some (e, p) → payloadType p ∈ validLabels

/-- After a local-mutex acquisition, the trace never records a further
distributed-lock attempt. -/
def ordOk (l : List GEvent) : Bool :=
  (l.dropWhile (fun e => !(e == GEvent.localLockAcquire))).all
    (fun e => !(e == GEvent.remoteLockAttempt))

/-! ### Concrete fixtures for witnesses and counterexamples -/
/-- The default configuration (config.py defaults; lock wait 5 s = 50 ticks
of 100 ms, shortened to 2 ticks here to keep evaluation small). -/
def envC : GarmentEnv := ⟨86400, true, 2, "gemini-2.5-flash-image-preview"⟩

def stEmpty : GarmentState := ⟨fun _ => none⟩

/-- A polling round that observes a cache miss and a still-held lock. -/
def missWaitRound : WaitRound := ⟨.ok none, .ok true, .ok none⟩

/-- Remote store fully unavailable and the classifier failing. -/
def oracleAllDown : GarmentOracle :=
  ⟨false, .error (), .error (), fun _ => missWaitRound, .error (), .error (), 0,
    .error (), .error ()⟩

/-- Remote store healthy but cold; this caller wins the distributed lock. -/
def oracleLeader : GarmentOracle :=
  ⟨true, .ok none, .ok true, fun _ => missWaitRound, .ok none, .ok (some "dress"), 0,
    .ok (), .ok ()⟩

/-- Remote store healthy but cold; the distributed lock is held elsewhere and
the follower wait times out (every round is a miss with the lock held). -/
def oracleFollower : GarmentOracle :=
  ⟨true, .ok none, .ok false, fun _ => missWaitRound, .ok none, .ok (some "dress"), 0,
    .ok (), .ok ()⟩

/-! ### Encode/decode round trip (C5), cache keys (C8) -/
/-- Remote `SET key value` on the remote store's key space. -/
def storeSet {α : Type} (store : String → Option α) (k : String) (v : α) :
    String → Option α :=
  fun k' => if k' = k then some v else store k'

/-- Remote store healthy, this caller is leader, and the classifier raises. -/
def oracleLeaderClsFail : GarmentOracle :=
  ⟨true, .ok none, .ok true, fun _ => missWaitRound, .ok none, .error (), 42,
    .ok (), .ok ()⟩

theorem normalizeGarmentType_mem (label : String) (l : String)
    (h : normalizeGarmentType label = some l) : l ∈ validLabels := by
  unfold normalizeGarmentType at h
  dsimp only at h
  split at h
  · rename_i hs
    simp only [Option.some.injEq] at h
    subst h
    rcases hs with h1 | h1 | h1 <;> simp [validLabels, h1]
  · split at h
    · simp only [Option.some.injEq] at h; simp [validLabels, ← h]
    · split at h
      · simp only [Option.some.injEq] at h; simp [validLabels, ← h]
      · split at h
        · simp only [Option.some.injEq] at h; simp [validLabels, ← h]
        · exact absurd h (by simp)

theorem payloadType_jsonSet_type (fields : List (String × JsonValue)) (n : String) :
    payloadType (jsonSet (.obj fields) "type" (.str n)) = n := by
  simp only [jsonSet, payloadType, jsonGet]
  induction fields with
  | nil => simp [jsonSet.setFieldAux, List.lookup]
  | cons hd tl ih =>
    obtain ⟨k', v'⟩ := hd
    by_cases hk : k' = "type"
    · simp [jsonSet.setFieldAux, hk, List.lookup]
    · simp only [jsonSet.setFieldAux, if_neg hk, List.lookup]
      have hne : ("type" == k') = false := beq_eq_false_iff_ne.mpr (Ne.symm hk)
      rw [hne]
      exact ih

theorem decodeCachePayload_type_mem (raw : Option (Option JsonValue)) (p : JsonValue)
    (h : decodeCachePayload raw = some p) : payloadType p ∈ validLabels := by
  match raw with
  | none => simp [decodeCachePayload] at h
  | some none => simp [decodeCachePayload] at h
  | some (some j) =>
    unfold decodeCachePayload at h
    dsimp only at h
    match hg : jsonGet j "type" with
    | some (.str t) =>
      rw [hg] at h
      dsimp only at h
      match hn : normalizeGarmentType t with
      | some n =>
        rw [hn] at h
        simp only [Option.some.injEq] at h
        subst h
        have hmem := normalizeGarmentType_mem t n hn
        match j with
        | .obj fields =>
          rw [payloadType_jsonSet_type fields n]
          exact hmem
        | .str s => simp [jsonGet] at hg
        | .num m => simp [jsonGet] at hg
        | .bool b => simp [jsonGet] at hg
        | .null => simp [jsonGet] at hg
        | .arr xs => simp [jsonGet] at hg
      | none => rw [hn] at h; simp at h
    | some (.num m) => rw [hg] at h; simp at h
    | some (.obj f) => rw [hg] at h; simp at h
    | some (.arr xs) => rw [hg] at h; simp at h
    | some (.bool b) => rw [hg] at h; simp at h
    | some .null => rw [hg] at h; simp at h
    | none => rw [hg] at h; simp at h

theorem redisExecuteAux_count_le {ε α : Type} (outcomes : Nat → Except ε α) :
    ∀ rem i, (redisExecuteAux outcomes i (rem + 1)).2 ≤ rem + 1 := by
  intro rem
  induction rem with
  | zero => intro i; simp [redisExecuteAux]
  | succ r ih =>
    intro i
    show (redisExecuteAux outcomes i (r + 2)).2 ≤ r + 2
    unfold redisExecuteAux
    match outcomes i with
    | .ok a => simp
    | .error e =>
      dsimp only
      have := ih (i + 1)
      omega

theorem redisExecuteAux_first_ok {ε α : Type} (outcomes : Nat → Except ε α) :
    ∀ k rem i a, k ≤ rem →
      (∀ j, j < k → ∃ e, outcomes (i + j) = .error e) →
      outcomes (i + k) = .ok a →
      redisExecuteAux outcomes i (rem + 1) = (.ok a, k + 1) := by
  intro k
  induction k with
  | zero =>
    intro rem i a _ _ hok
    simp only [Nat.add_zero] at hok
    match rem with
    | 0 => simp [redisExecuteAux, hok]
    | r + 1 =>
      show redisExecuteAux outcomes i (r + 2) = _
      unfold redisExecuteAux
      rw [hok]
  | succ k' ih =>
    intro rem i a hle herr hok
    match rem with
    | 0 => omega
    | r + 1 =>
      show redisExecuteAux outcomes i (r + 2) = _
      unfold redisExecuteAux
      obtain ⟨e, he⟩ := herr 0 (Nat.succ_pos k')
      rw [Nat.add_zero] at he
      rw [he]
      dsimp only
      have hrec : redisExecuteAux outcomes (i + 1) (r + 1) = (.ok a, k' + 1) := by
        apply ih r (i + 1) a (by omega)
        · intro j hj
          obtain ⟨e', he'⟩ := herr (j + 1) (by omega)
          exact ⟨e', by rw [← he']; ring_nf⟩
        · rw [← hok]; ring_nf
      rw [hrec]

theorem redisExecuteAux_all_fail {ε α : Type} (outcomes : Nat → Except ε α) :
    ∀ rem i, (∀ j, j ≤ rem → ∃ e, outcomes (i + j) = .error e) →
      redisExecuteAux outcomes i (rem + 1) = (outcomes (i + rem), rem + 1) := by
  intro rem
  induction rem with
  | zero => intro i _; simp [redisExecuteAux]
  | succ r ih =>
    intro i herr
    show redisExecuteAux outcomes i (r + 2) = _
    unfold redisExecuteAux
    obtain ⟨e, he⟩ := herr 0 (Nat.zero_le _)
    rw [Nat.add_zero] at he
    rw [he]
    dsimp only
    have hrec := ih (i + 1) (fun j hj => by
      obtain ⟨e', he'⟩ := herr (j + 1) (by omega)
      exact ⟨e', by rw [← he']; ring_nf⟩)
    rw [hrec]
    have : i + 1 + r = i + (r + 1) := by ring
    rw [this]

theorem redisStep_inv {cfg : RedisConfig} {s s' : RedisState}
    (hstep : RedisStep cfg s s') (ih : s.client.isSome → s.retryAt = none) :
    s'.client.isSome → s'.retryAt = none := by
  cases hstep with
  | get connectOk now =>
    unfold getRedisClient
    by_cases h1 : cfg.urlConfigured
    · simp only [h1, not_true_eq_false, if_false]
      by_cases h2 : s.client.isSome
      · simp only [h2, if_true]; intro _; exact ih h2
      · simp only [h2, if_false]
        by_cases h3 : backoffActive s now
        · simp only [h3, if_true]; exact ih
        · simp only [h3, if_false]
          by_cases h4 : connectOk
          · simp [h4]
          · simp [h4]
    · simp only [h1, not_false_eq_true, if_true]; exact ih
  | fail now => simp [recordRedisFailure]
  | close => simp [closeRedisClient]

/-- In reachable states a stored handle and an armed backoff are exclusive:
every transition that arms `_redis_retry_at` also clears `_redis_client`. -/
theorem redisReachable_inv {cfg : RedisConfig} {s : RedisState}
    (h : RedisReachable cfg s) : s.client.isSome → s.retryAt = none := by
  induction h with
  | init => intro hc; simp at hc
  | step _ hstep ih => exact redisStep_inv hstep ih

theorem payloadType_buildCachePayload (t o : String) (ts : Int) (m : String) :
    payloadType (buildCachePayload t o ts m) = t := rfl

theorem writeL1_wf {st : GarmentState} {digest : String} {expiry : Nat} {p : JsonValue}
    (hst : GStateWF st) (hp : payloadType p ∈ validLabels) :
    GStateWF (writeL1 st digest expiry p) := by
  intro d e q hq
  simp only [writeL1] at hq
  by_cases hd : d = digest
  · rw [if_pos hd] at hq
    simp only [Option.some.injEq, Prod.mk.injEq] at hq
    exact hq.2 ▸ hp
  · rw [if_neg hd] at hq
    exact hst d e q hq

theorem l1Lookup_wf {st : GarmentState} {digest : String} {now : Nat} {p : JsonValue}
    (hst : GStateWF st) (h : l1Lookup st digest now = some p) :
    payloadType p ∈ validLabels := by
  unfold l1Lookup at h
  cases hl : st.l1 digest with
  | none => rw [hl] at h; simp at h
  | some ep =>
    rw [hl] at h
    dsimp only at h
    by_cases ht : now < ep.1
    · rw [if_pos ht] at h
      obtain ⟨e, q⟩ := ep
      cases h
      exact hst digest e q hl
    · rw [if_neg ht] at h; simp at h

theorem classifierLabel_mem (o : GarmentOracle) : classifierLabel o ∈ validLabels := by
  unfold classifierLabel
  cases o.classifierText with
  | error e => simp [validLabels]
  | ok labelText =>
    dsimp only
    cases hn : normalizeGarmentType (labelText.getD "") with
    | none => simp [validLabels]
    | some l => simpa using normalizeGarmentType_mem _ l hn

theorem waitForRedisPayload_type_mem (rounds : Nat → WaitRound) :
    ∀ fuel i p, (waitForRedisPayload rounds i fuel).payload = some p →
      payloadType p ∈ validLabels := by
  intro fuel
  induction fuel with
  | zero => intro i p h; simp [waitForRedisPayload] at h
  | succ f ih =>
    intro i p h
    unfold waitForRedisPayload at h
    dsimp only at h
    cases hg : (rounds i).getRaw with
    | error e => rw [hg] at h; simp at h
    | ok raw =>
      rw [hg] at h
      dsimp only at h
      cases hd : decodeCachePayload raw with
      | some q =>
        rw [hd] at h
        dsimp only at h
        cases h
        exact decodeCachePayload_type_mem raw _ hd
      | none =>
        rw [hd] at h
        dsimp only at h
        cases hl : (rounds i).lockExists with
        | error e => rw [hl] at h; simp at h
        | ok b =>
          rw [hl] at h
          cases b with
          | true => exact ih (i + 1) p h
          | false =>
            dsimp only at h
            cases hf : (rounds i).finalGetRaw with
            | error e => rw [hf] at h; simp at h
            | ok raw2 =>
              rw [hf] at h
              dsimp only at h
              exact decodeCachePayload_type_mem raw2 p h

theorem computePhase_spec (env : GarmentEnv) (o : GarmentOracle) (digest : String)
    (redisAlive : Bool) (clock : Nat) (st : GarmentState) (hst : GStateWF st) :
    (computePhase env o digest redisAlive clock st).1 ∈ validLabels ∧
      GStateWF (computePhase env o digest redisAlive clock st).2.1 := by
  unfold computePhase
  dsimp only
  refine ⟨classifierLabel_mem o, ?_⟩
  by_cases ht : 0 < env.ttl
  · rw [if_pos ht]
    exact writeL1_wf hst (by rw [payloadType_buildCachePayload]; exact classifierLabel_mem o)
  · rw [if_neg ht]; exact hst

theorem afterLockPhase_spec (env : GarmentEnv) (o : GarmentOracle) (digest : String)
    (redisAlive : Bool) (clock : Nat) (st : GarmentState) (hst : GStateWF st) :
    (afterLockPhase env o digest redisAlive clock st).1 ∈ validLabels ∧
      GStateWF (afterLockPhase env o digest redisAlive clock st).2.1 := by
  unfold afterLockPhase
  cases hl1 : l1Lookup st digest clock with
  | some p => exact ⟨l1Lookup_wf hst hl1, hst⟩
  | none =>
    dsimp only
    by_cases hr : redisAlive
    · rw [if_pos hr]
      cases hg : o.recheckGet with
      | error e =>
        dsimp only
        exact computePhase_spec env o digest false clock st hst
      | ok raw =>
        dsimp only
        cases hd : decodeCachePayload raw with
        | some p =>
          dsimp only
          by_cases ht : 0 < env.ttl
          · rw [if_pos ht]
            exact ⟨decodeCachePayload_type_mem raw p hd,
              writeL1_wf hst (decodeCachePayload_type_mem raw p hd)⟩
          · rw [if_neg ht]
            exact ⟨decodeCachePayload_type_mem raw p hd, hst⟩
        | none =>
          dsimp only
          exact computePhase_spec env o digest true clock st hst
    · rw [if_neg hr]
      exact computePhase_spec env o digest false clock st hst

theorem lockAndComputePhase_spec (env : GarmentEnv) (o : GarmentOracle) (digest : String)
    (redisAlive0 : Bool) (t0 : Nat) (st : GarmentState) (hst : GStateWF st) :
    (lockAndComputePhase env o digest redisAlive0 t0 st).result ∈ validLabels ∧
      GStateWF (lockAndComputePhase env o digest redisAlive0 t0 st).state := by
  unfold lockAndComputePhase
  by_cases hr : redisAlive0
  · rw [if_pos hr]
    cases ha : o.lockAcquire with
    | error e =>
      dsimp only
      exact afterLockPhase_spec env o digest false t0 st hst
    | ok b =>
      cases b with
      | true =>
        dsimp only
        exact afterLockPhase_spec env o digest true t0 st hst
      | false =>
        dsimp only
        cases hw : (waitForRedisPayload o.waitRounds 0 env.lockWaitTicks).payload with
        | some p =>
          dsimp only
          have hp := waitForRedisPayload_type_mem o.waitRounds env.lockWaitTicks 0 p hw
          by_cases ht : 0 < env.ttl
          · rw [if_pos ht]
            exact ⟨hp, writeL1_wf hst hp⟩
          · rw [if_neg ht]
            exact ⟨hp, hst⟩
        | none =>
          dsimp only
          exact afterLockPhase_spec env o digest true _ st hst
  · rw [if_neg hr]
    exact afterLockPhase_spec env o digest false t0 st hst

theorem classifyMain_spec (env : GarmentEnv) (o : GarmentOracle)
    (digest : String) (t0 : Nat) (st : GarmentState) (hst : GStateWF st) :
    (classifyMain env o digest t0 st).result ∈ validLabels ∧
      GStateWF (classifyMain env o digest t0 st).state := by
  unfold classifyMain
  by_cases hen : env.classifyEnabled = false
  · rw [if_pos hen]
    exact ⟨by simp [validLabels], hst⟩
  · rw [if_neg hen]
    cases hl1 : l1Lookup st digest t0 with
    | some p => exact ⟨l1Lookup_wf hst hl1, hst⟩
    | none =>
      dsimp only
      by_cases hra : o.redisAvailable
      · rw [if_pos hra]
        by_cases ht : 0 < env.ttl
        · rw [if_pos ht]
          cases hg : o.initialGet with
          | error e =>
            dsimp only
            exact lockAndComputePhase_spec env o digest false t0 st hst
          | ok raw =>
            dsimp only
            cases hd : decodeCachePayload raw with
            | some p =>
              dsimp only
              exact ⟨decodeCachePayload_type_mem raw p hd,
                writeL1_wf hst (decodeCachePayload_type_mem raw p hd)⟩
            | none =>
              dsimp only
              exact lockAndComputePhase_spec env o digest true t0 st hst
        · rw [if_neg ht]
          exact lockAndComputePhase_spec env o digest true t0 st hst
      · rw [if_neg hra]
        exact lockAndComputePhase_spec env o digest false t0 st hst

/-- Claim C1: For every digest (hence every input bytes), every optional
override, every collaborator behaviour (any oracle: remote store errors,
classifier errors), and every well-formed L1 state, `classify_garment_type`
returns one of "top", "bottom", "full", and the resulting L1 state remains
well-formed. Non-raising is captured by the embedding's totality: every
`except` of the source is an explicit oracle error branch, so the function
is defined — with a label result — for every behaviour. -/
theorem c1_classify_returns_valid_label (env : GarmentEnv) (o : GarmentOracle)
    (digest : String) (override : Option String) (t0 : Nat) (st : GarmentState)
    (hst : GStateWF st) :
    (classifyGarmentType env o digest override t0 st).result ∈ validLabels ∧
      GStateWF (classifyGarmentType env o digest override t0 st).state := by
  unfold classifyGarmentType
  dsimp only
  cases hov : (match override with
    | some ov => if ov = "" then none else normalizeGarmentType ov
    | none => none : Option String) with
  | some n =>
    dsimp only
    refine ⟨?_, hst⟩
    cases override with
    | none => simp at hov
    | some ov =>
      dsimp only at hov
      by_cases he : ov = ""
      · rw [if_pos he] at hov; simp at hov
      · rw [if_neg he] at hov
        exact normalizeGarmentType_mem ov n hov
  | none =>
    dsimp only
    exact classifyMain_spec env o digest t0 st hst

/-! ### Event-trace facts: which events each phase can emit, and ordering -/
theorem computePhase_events_subset (env : GarmentEnv) (o : GarmentOracle) (digest : String)
    (ra : Bool) (clock : Nat) (st : GarmentState) :
    ∀ e, e ∈ (computePhase env o digest ra clock st).2.2 →
      e = GEvent.classifierCall ∨ e = GEvent.l1Write ∨ e = GEvent.remoteSet ∨
        e = GEvent.recordFailure := by
  unfold computePhase
  dsimp only
  intro e he
  rcases List.mem_cons.mp he with h | h
  · exact Or.inl h
  rcases List.mem_append.mp h with h1 | h2
  · by_cases ht : 0 < env.ttl
    · rw [if_pos ht] at h1
      simp only [List.mem_singleton] at h1
      exact Or.inr (Or.inl h1)
    · rw [if_neg ht] at h1
      simp at h1
  · by_cases hc : ra = true ∧ 0 < env.ttl
    · rw [if_pos hc] at h2
      cases hso : o.setOutcome with
      | ok u =>
        rw [hso] at h2
        dsimp only at h2
        simp only [List.mem_singleton] at h2
        exact Or.inr (Or.inr (Or.inl h2))
      | error u =>
        rw [hso] at h2
        dsimp only at h2
        rcases List.mem_cons.mp h2 with h3 | h3
        · exact Or.inr (Or.inr (Or.inl h3))
        · simp only [List.mem_singleton] at h3
          exact Or.inr (Or.inr (Or.inr h3))
    · rw [if_neg hc] at h2
      simp at h2

theorem computePhase_classifierCall_mem (env : GarmentEnv) (o : GarmentOracle)
    (digest : String) (ra : Bool) (clock : Nat) (st : GarmentState) :
    GEvent.classifierCall ∈ (computePhase env o digest ra clock st).2.2 := by
  unfold computePhase
  exact List.mem_cons_self _ _

theorem computePhase_l1Write_mem (env : GarmentEnv) (o : GarmentOracle)
    (digest : String) (ra : Bool) (clock : Nat) (st : GarmentState) (ht : 0 < env.ttl) :
    GEvent.l1Write ∈ (computePhase env o digest ra clock st).2.2 := by
  unfold computePhase
  dsimp only
  rw [if_pos ht]
  simp

theorem computePhase_remoteSet_iff (env : GarmentEnv) (o : GarmentOracle)
    (digest : String) (ra : Bool) (clock : Nat) (st : GarmentState) :
    GEvent.remoteSet ∈ (computePhase env o digest ra clock st).2.2 ↔
      (ra = true ∧ 0 < env.ttl) := by
  unfold computePhase
  dsimp only
  constructor
  · intro he
    rcases List.mem_cons.mp he with h | h
    · simp at h
    rcases List.mem_append.mp h with h1 | h2
    · by_cases ht : 0 < env.ttl
      · rw [if_pos ht] at h1; simp at h1
      · rw [if_neg ht] at h1; simp at h1
    · by_cases hc : ra = true ∧ 0 < env.ttl
      · exact hc
      · rw [if_neg hc] at h2; simp at h2
  · intro hc
    rw [List.mem_cons]
    right
    rw [List.mem_append]
    right
    rw [if_pos hc]
    cases o.setOutcome <;> simp

theorem afterLockPhase_events_subset (env : GarmentEnv) (o : GarmentOracle) (digest : String)
    (ra : Bool) (clock : Nat) (st : GarmentState) :
    ∀ e, e ∈ (afterLockPhase env o digest ra clock st).2.2 →
      e = GEvent.remoteGet ∨ e = GEvent.recordFailure ∨ e = GEvent.classifierCall ∨
        e = GEvent.l1Write ∨ e = GEvent.remoteSet := by
  unfold afterLockPhase
  intro e he
  cases hl1 : l1Lookup st digest clock with
  | some p => rw [hl1] at he; simp at he
  | none =>
    rw [hl1] at he
    dsimp only at he
    by_cases hr : ra = true
    · rw [if_pos hr] at he
      cases hg : o.recheckGet with
      | error u =>
        rw [hg] at he
        dsimp only at he
        rcases List.mem_cons.mp he with h | h
        · exact Or.inl h
        rcases List.mem_cons.mp h with h | h
        · exact Or.inr (Or.inl h)
        rcases computePhase_events_subset env o digest false clock st e h with h | h | h
        · exact Or.inr (Or.inr (Or.inl h))
        · exact Or.inr (Or.inr (Or.inr (Or.inl h)))
        rcases h with h | h
        · exact Or.inr (Or.inr (Or.inr (Or.inr h)))
        · exact Or.inr (Or.inl h)
      | ok raw =>
        rw [hg] at he
        dsimp only at he
        cases hd : decodeCachePayload raw with
        | some p =>
          rw [hd] at he
          dsimp only at he
          by_cases ht : 0 < env.ttl
          · rw [if_pos ht] at he
            rcases List.mem_cons.mp he with h | h
            · exact Or.inl h
            · simp only [List.mem_singleton] at h
              exact Or.inr (Or.inr (Or.inr (Or.inl h)))
          · rw [if_neg ht] at he
            simp only [List.mem_singleton] at he
            exact Or.inl he
        | none =>
          rw [hd] at he
          dsimp only at he
          rcases List.mem_cons.mp he with h | h
          · exact Or.inl h
          rcases computePhase_events_subset env o digest true clock st e h with h | h | h
          · exact Or.inr (Or.inr (Or.inl h))
          · exact Or.inr (Or.inr (Or.inr (Or.inl h)))
          rcases h with h | h
          · exact Or.inr (Or.inr (Or.inr (Or.inr h)))
          · exact Or.inr (Or.inl h)
    · rw [if_neg hr] at he
      rcases computePhase_events_subset env o digest false clock st e he with h | h | h
      · exact Or.inr (Or.inr (Or.inl h))
      · exact Or.inr (Or.inr (Or.inr (Or.inl h)))
      rcases h with h | h
      · exact Or.inr (Or.inr (Or.inr (Or.inr h)))
      · exact Or.inr (Or.inl h)

theorem afterLockPhase_no_local (env : GarmentEnv) (o : GarmentOracle) (digest : String)
    (ra : Bool) (clock : Nat) (st : GarmentState) :
    GEvent.localLockAcquire ∉ (afterLockPhase env o digest ra clock st).2.2 := by
  intro h
  rcases afterLockPhase_events_subset env o digest ra clock st _ h with h | h | h | h | h <;>
    simp at h

theorem afterLockPhase_no_remoteAttempt (env : GarmentEnv) (o : GarmentOracle) (digest : String)
    (ra : Bool) (clock : Nat) (st : GarmentState) :
    GEvent.remoteLockAttempt ∉ (afterLockPhase env o digest ra clock st).2.2 := by
  intro h
  rcases afterLockPhase_events_subset env o digest ra clock st _ h with h | h | h | h | h <;>
    simp at h

theorem ordOk_of_not_mem {l : List GEvent} (h : GEvent.localLockAcquire ∉ l) :
    ordOk l = true := by
  unfold ordOk
  have : l.dropWhile (fun e => !(e == GEvent.localLockAcquire)) = [] := by
    induction l with
    | nil => simp
    | cons a l ih =>
      rw [List.dropWhile_cons]
      have ha : a ≠ GEvent.localLockAcquire := fun hc => h (hc ▸ List.mem_cons_self a l)
      have : (!(a == GEvent.localLockAcquire)) = true := by
        simp [ha]
      rw [if_pos this]
      exact ih (fun hc => h (List.mem_cons_of_mem a hc))
  rw [this]
  rfl

theorem ordOk_spec {l : List GEvent} (h : ordOk l = true) :
    ∀ pre post, l = pre ++ GEvent.localLockAcquire :: post →
      GEvent.remoteLockAttempt ∉ post := by
  intro pre
  induction pre generalizing l with
  | nil =>
    intro post hl hmem
    subst hl
    unfold ordOk at h
    rw [List.nil_append, List.dropWhile_cons] at h
    simp only [beq_self_eq_true, Bool.not_true, if_false] at h
    have := (List.all_eq_true.mp h) GEvent.remoteLockAttempt
      (List.mem_cons_of_mem _ hmem)
    simp at this
  | cons a pre ih =>
    intro post hl hmem
    subst hl
    by_cases ha : a = GEvent.localLockAcquire
    · unfold ordOk at h
      rw [List.cons_append, List.dropWhile_cons] at h
      have hcond : (!(a == GEvent.localLockAcquire)) = false := by simp [ha]
      rw [if_neg (by rw [hcond]; exact Bool.false_ne_true)] at h
      have := (List.all_eq_true.mp h) GEvent.remoteLockAttempt
        (by
          rw [List.mem_cons, List.mem_append, List.mem_cons]
          right; right; right
          exact hmem)
      simp at this
    · refine ih ?_ post rfl hmem
      unfold ordOk at h ⊢
      rw [List.cons_append, List.dropWhile_cons] at h
      have hcond : (!(a == GEvent.localLockAcquire)) = true := by simp [ha]
      rw [if_pos hcond] at h
      exact h

theorem all_noRemote_of_not_mem {l : List GEvent} (h : GEvent.remoteLockAttempt ∉ l) :
    l.all (fun e => !(e == GEvent.remoteLockAttempt)) = true :=
  List.all_eq_true.mpr (fun e he => by
    have hne : e ≠ GEvent.remoteLockAttempt := fun hc => h (hc ▸ he)
    simp [hne])

theorem ordOk_of_shape {pre rest : List GEvent}
    (hpre : GEvent.localLockAcquire ∉ pre)
    (hrest : GEvent.remoteLockAttempt ∉ rest) :
    ordOk (pre ++ GEvent.localLockAcquire :: rest) = true := by
  induction pre with
  | nil =>
    rw [List.nil_append]
    unfold ordOk
    have hdw : (GEvent.localLockAcquire :: rest).dropWhile
        (fun e => !(e == GEvent.localLockAcquire)) = GEvent.localLockAcquire :: rest := by
      rw [List.dropWhile_cons]
      simp
    rw [hdw, List.all_cons, all_noRemote_of_not_mem hrest]
    decide
  | cons a pre ih =>
    have ha : a ≠ GEvent.localLockAcquire := fun hc => hpre (hc ▸ List.mem_cons_self a pre)
    have hpre' : GEvent.localLockAcquire ∉ pre := fun hc => hpre (List.mem_cons_of_mem a hc)
    rw [List.cons_append]
    unfold ordOk
    rw [List.dropWhile_cons, if_pos (by simp [ha])]
    exact ih hpre'

theorem ordOk_cons {a : GEvent} {l : List GEvent} (ha : a ≠ GEvent.localLockAcquire) :
    ordOk (a :: l) = ordOk l := by
  unfold ordOk
  rw [List.dropWhile_cons, if_pos (by simp [ha])]

theorem lockAndComputePhase_events_spec (env : GarmentEnv) (o : GarmentOracle)
    (digest : String) (ra0 : Bool) (t0 : Nat) (st : GarmentState) :
    ordOk (lockAndComputePhase env o digest ra0 t0 st).events = true
  ∧ (GEvent.remoteLockAttempt ∈ (lockAndComputePhase env o digest ra0 t0 st).events →
      o.lockAcquire = .ok true →
      GEvent.localLockAcquire ∉ (lockAndComputePhase env o digest ra0 t0 st).events)
  ∧ (GEvent.classifierCall ∈ (lockAndComputePhase env o digest ra0 t0 st).events →
      GEvent.localLockAcquire ∈ (lockAndComputePhase env o digest ra0 t0 st).events ∨
        (GEvent.remoteLockAttempt ∈ (lockAndComputePhase env o digest ra0 t0 st).events ∧
          o.lockAcquire = .ok true)) := by
  unfold lockAndComputePhase
  by_cases hr : ra0 = true
  · rw [if_pos hr]
    cases hac : o.lockAcquire with
    | error u =>
      dsimp only
      refine ⟨?_, ?_, ?_⟩
      · have heq :
            [GEvent.remoteLockAttempt, GEvent.recordFailure, GEvent.localLockAcquire]
                ++ (afterLockPhase env o digest false t0 st).2.2 ++ [GEvent.localLockRelease]
              = [GEvent.remoteLockAttempt, GEvent.recordFailure]
                ++ GEvent.localLockAcquire ::
                  ((afterLockPhase env o digest false t0 st).2.2
                    ++ [GEvent.localLockRelease]) := by
          simp
        rw [heq]
        refine ordOk_of_shape (by decide) ?_
        intro hmem
        rcases List.mem_append.mp hmem with h | h
        · exact afterLockPhase_no_remoteAttempt env o digest false t0 st h
        · simp at h
      · intro _ hok
        simp at hok
      · intro _
        left
        rw [List.append_assoc, List.mem_append]
        left
        decide
    | ok b =>
      cases b with
      | true =>
        dsimp only
        have hnl : GEvent.localLockAcquire ∉
            [GEvent.remoteLockAttempt] ++ (afterLockPhase env o digest true t0 st).2.2
              ++ [GEvent.remoteLockRelease] := by
          intro hmem
          rcases List.mem_append.mp hmem with h | h
          · rcases List.mem_append.mp h with h1 | h1
            · simp at h1
            · exact afterLockPhase_no_local env o digest true t0 st h1
          · simp at h
        refine ⟨ordOk_of_not_mem hnl, fun _ _ => hnl, fun _ => Or.inr ⟨?_, rfl⟩⟩
        rw [List.append_assoc, List.mem_append]
        left
        decide
      | false =>
        dsimp only
        cases hw : (waitForRedisPayload o.waitRounds 0 env.lockWaitTicks).payload with
        | some p =>
          dsimp only
          by_cases ht : 0 < env.ttl
          · rw [if_pos ht]
            refine ⟨ordOk_of_not_mem ?_, ?_, ?_⟩
            · show GEvent.localLockAcquire ∉
                [GEvent.remoteLockAttempt, GEvent.followerWait, GEvent.l1Write]
              decide
            · intro _ hok
              simp at hok
            · intro hc
              simp at hc
          · rw [if_neg ht]
            refine ⟨ordOk_of_not_mem ?_, ?_, ?_⟩
            · show GEvent.localLockAcquire ∉
                [GEvent.remoteLockAttempt, GEvent.followerWait]
              decide
            · intro _ hok
              simp at hok
            · intro hc
              simp at hc
        | none =>
          dsimp only
          refine ⟨?_, ?_, ?_⟩
          · have heq :
                [GEvent.remoteLockAttempt, GEvent.followerWait, GEvent.localLockAcquire]
                    ++ (afterLockPhase env o digest true
                      (t0 + (waitForRedisPayload o.waitRounds 0 env.lockWaitTicks).ticks)
                        st).2.2 ++ [GEvent.localLockRelease]
                  = [GEvent.remoteLockAttempt, GEvent.followerWait]
                    ++ GEvent.localLockAcquire ::
                      ((afterLockPhase env o digest true
                        (t0 + (waitForRedisPayload o.waitRounds 0 env.lockWaitTicks).ticks)
                          st).2.2 ++ [GEvent.localLockRelease]) := by
              simp
            rw [heq]
            refine ordOk_of_shape (by decide) ?_
            intro hmem
            rcases List.mem_append.mp hmem with h | h
            · exact afterLockPhase_no_remoteAttempt env o digest true _ st h
            · simp at h
          · intro _ hok
            simp at hok
          · intro _
            left
            rw [List.append_assoc, List.mem_append]
            left
            decide
  · rw [if_neg hr]
    dsimp only
    have hnr : GEvent.remoteLockAttempt ∉
        [GEvent.localLockAcquire] ++ (afterLockPhase env o digest false t0 st).2.2
          ++ [GEvent.localLockRelease] := by
      intro hmem
      rcases List.mem_append.mp hmem with h | h
      · rcases List.mem_append.mp h with h1 | h1
        · simp at h1
        · exact afterLockPhase_no_remoteAttempt env o digest false t0 st h1
      · simp at h
    refine ⟨?_, fun hmem _ => absurd hmem hnr, fun _ => ?_⟩
    · have heq :
          [GEvent.localLockAcquire] ++ (afterLockPhase env o digest false t0 st).2.2
              ++ [GEvent.localLockRelease]
            = ([] : List GEvent) ++ GEvent.localLockAcquire ::
                ((afterLockPhase env o digest false t0 st).2.2
                  ++ [GEvent.localLockRelease]) := by
        simp
      rw [heq]
      refine ordOk_of_shape (by decide) ?_
      intro hmem
      rcases List.mem_append.mp hmem with h | h
      · exact afterLockPhase_no_remoteAttempt env o digest false t0 st h
      · simp at h
    · left
      rw [List.append_assoc, List.mem_append]
      left
      decide

theorem classifyMain_events_spec (env : GarmentEnv) (o : GarmentOracle)
    (digest : String) (t0 : Nat) (st : GarmentState) :
    ordOk (classifyMain env o digest t0 st).events = true
  ∧ (GEvent.remoteLockAttempt ∈ (classifyMain env o digest t0 st).events →
      o.lockAcquire = .ok true →
      GEvent.localLockAcquire ∉ (classifyMain env o digest t0 st).events)
  ∧ (GEvent.classifierCall ∈ (classifyMain env o digest t0 st).events →
      GEvent.localLockAcquire ∈ (classifyMain env o digest t0 st).events ∨
        (GEvent.remoteLockAttempt ∈ (classifyMain env o digest t0 st).events ∧
          o.lockAcquire = .ok true)) := by
  unfold classifyMain
  by_cases hen : env.classifyEnabled = false
  · rw [if_pos hen]
    refine ⟨?_, ?_, ?_⟩
    · show ordOk ([] : List GEvent) = true
      decide
    · intro h _
      simp at h
    · intro h
      simp at h
  · rw [if_neg hen]
    cases hl1 : l1Lookup st digest t0 with
    | some p =>
      dsimp only
      refine ⟨?_, ?_, ?_⟩
      · show ordOk ([] : List GEvent) = true
        decide
      · intro h _
        simp at h
      · intro h
        simp at h
    | none =>
      dsimp only
      by_cases hra : o.redisAvailable = true
      · rw [if_pos hra]
        by_cases ht : 0 < env.ttl
        · rw [if_pos ht]
          cases hg : o.initialGet with
          | error u =>
            dsimp only
            obtain ⟨h1, h2, h3⟩ :=
              lockAndComputePhase_events_spec env o digest false t0 st
            refine ⟨?_, ?_, ?_⟩
            · rw [ordOk_cons (by decide), ordOk_cons (by decide)]
              exact h1
            · intro hmem hok hloc
              have hmem' : GEvent.remoteLockAttempt ∈
                  (lockAndComputePhase env o digest false t0 st).events := by
                rcases List.mem_cons.mp hmem with h | h
                · simp at h
                rcases List.mem_cons.mp h with h' | h'
                · simp at h'
                · exact h'
              have hloc' : GEvent.localLockAcquire ∈
                  (lockAndComputePhase env o digest false t0 st).events := by
                rcases List.mem_cons.mp hloc with h | h
                · simp at h
                rcases List.mem_cons.mp h with h' | h'
                · simp at h'
                · exact h'
              exact h2 hmem' hok hloc'
            · intro hcl
              have hcl' : GEvent.classifierCall ∈
                  (lockAndComputePhase env o digest false t0 st).events := by
                rcases List.mem_cons.mp hcl with h | h
                · simp at h
                rcases List.mem_cons.mp h with h' | h'
                · simp at h'
                · exact h'
              rcases h3 hcl' with h | ⟨h, hok⟩
              · exact Or.inl (List.mem_cons_of_mem _ (List.mem_cons_of_mem _ h))
              · exact Or.inr ⟨List.mem_cons_of_mem _ (List.mem_cons_of_mem _ h), hok⟩
          | ok raw =>
            dsimp only
            cases hd : decodeCachePayload raw with
            | some p =>
              dsimp only
              refine ⟨?_, ?_, ?_⟩
              · show ordOk [GEvent.remoteGet, GEvent.l1Write] = true
                decide
              · intro h _
                simp at h
              · intro h
                simp at h
            | none =>
              dsimp only
              obtain ⟨h1, h2, h3⟩ :=
                lockAndComputePhase_events_spec env o digest true t0 st
              refine ⟨?_, ?_, ?_⟩
              · rw [ordOk_cons (by decide)]
                exact h1
              · intro hmem hok hloc
                have hmem' : GEvent.remoteLockAttempt ∈
                    (lockAndComputePhase env o digest true t0 st).events := by
                  rcases List.mem_cons.mp hmem with h | h
                  · simp at h
                  · exact h
                have hloc' : GEvent.localLockAcquire ∈
                    (lockAndComputePhase env o digest true t0 st).events := by
                  rcases List.mem_cons.mp hloc with h | h
                  · simp at h
                  · exact h
                exact h2 hmem' hok hloc'
              · intro hcl
                have hcl' : GEvent.classifierCall ∈
                    (lockAndComputePhase env o digest true t0 st).events := by
                  rcases List.mem_cons.mp hcl with h | h
                  · simp at h
                  · exact h
                rcases h3 hcl' with h | ⟨h, hok⟩
                · exact Or.inl (List.mem_cons_of_mem _ h)
                · exact Or.inr ⟨List.mem_cons_of_mem _ h, hok⟩
        · rw [if_neg ht]
          exact lockAndComputePhase_events_spec env o digest true t0 st
      · rw [if_neg hra]
        exact lockAndComputePhase_events_spec env o digest false t0 st

theorem classifyGarmentType_events_spec (env : GarmentEnv) (o : GarmentOracle)
    (digest : String) (override : Option String) (t0 : Nat) (st : GarmentState) :
    ordOk (classifyGarmentType env o digest override t0 st).events = true
  ∧ (GEvent.remoteLockAttempt ∈ (classifyGarmentType env o digest override t0 st).events →
      o.lockAcquire = .ok true →
      GEvent.localLockAcquire ∉ (classifyGarmentType env o digest override t0 st).events)
  ∧ (GEvent.classifierCall ∈ (classifyGarmentType env o digest override t0 st).events →
      GEvent.localLockAcquire ∈ (classifyGarmentType env o digest override t0 st).events ∨
        (GEvent.remoteLockAttempt ∈
            (classifyGarmentType env o digest override t0 st).events ∧
          o.lockAcquire = .ok true)) := by
  unfold classifyGarmentType
  dsimp only
  cases hov : (match override with
    | some ov => if ov = "" then none else normalizeGarmentType ov
    | none => none : Option String) with
  | some n =>
    dsimp only
    refine ⟨?_, ?_, ?_⟩
    · show ordOk ([] : List GEvent) = true
      decide
    · intro h _
      simp at h
    · intro h
      simp at h
  | none =>
    dsimp only
    exact classifyMain_events_spec env o digest t0 st

theorem c1_witness :
    (classifyGarmentType envC oracleAllDown "abc123" none 0 stEmpty).result ∈ validLabels ∧
      GStateWF (classifyGarmentType envC oracleAllDown "abc123" none 0 stEmpty).state :=
  c1_classify_returns_valid_label envC oracleAllDown "abc123" none 0 stEmpty
    (fun d e p h => by simp [stEmpty] at h)

/-- Claim C2 is false on the code: with a healthy remote store and a won
distributed lock (leader path), `classify_garment_type` reaches the lock
phase, attempts the distributed lock — and never acquires the local
singleflight mutex at all, let alone before the remote attempt
(garment.py:239-261 attempts the remote lock first and only acquires the
local mutex under `if not redis_lock_acquired`). -/
theorem c2_counterexample :
    GEvent.remoteLockAttempt ∈
        (classifyGarmentType envC oracleLeader "abc123" none 0 stEmpty).events ∧
      GEvent.localLockAcquire ∉
        (classifyGarmentType envC oracleLeader "abc123" none 0 stEmpty).events := by
  decide

/-- Claim C2 amended: for every execution, (i) once the local singleflight
mutex is acquired no distributed-lock attempt follows it — the remote
attempt, when made, comes first; (ii) when a distributed-lock attempt is
made and acquisition succeeds (leader), the local mutex is never acquired;
(iii) whenever the classifier runs, the caller holds either the local mutex
or the distributed lock. -/
theorem c2_lock_order (env : GarmentEnv) (o : GarmentOracle) (digest : String)
    (override : Option String) (t0 : Nat) (st : GarmentState) :
    (∀ pre post,
        (classifyGarmentType env o digest override t0 st).events =
          pre ++ GEvent.localLockAcquire :: post →
        GEvent.remoteLockAttempt ∉ post)
  ∧ (GEvent.remoteLockAttempt ∈ (classifyGarmentType env o digest override t0 st).events →
      o.lockAcquire = .ok true →
      GEvent.localLockAcquire ∉ (classifyGarmentType env o digest override t0 st).events)
  ∧ (GEvent.classifierCall ∈ (classifyGarmentType env o digest override t0 st).events →
      GEvent.localLockAcquire ∈ (classifyGarmentType env o digest override t0 st).events ∨
        (GEvent.remoteLockAttempt ∈
            (classifyGarmentType env o digest override t0 st).events ∧
          o.lockAcquire = .ok true)) := by
  obtain ⟨h1, h2, h3⟩ := classifyGarmentType_events_spec env o digest override t0 st
  exact ⟨fun pre post hl => ordOk_spec h1 pre post hl, h2, h3⟩

theorem c2_witness :
    GEvent.localLockAcquire ∈
        (classifyGarmentType envC oracleFollower "abc123" none 0 stEmpty).events ∨
      (GEvent.remoteLockAttempt ∈
          (classifyGarmentType envC oracleFollower "abc123" none 0 stEmpty).events ∧
        oracleFollower.lockAcquire = .ok true) :=
  (c2_lock_order envC oracleFollower "abc123" none 0 stEmpty).2.2 (by decide)

/-! ### Remote-SET frame facts (C3) -/
theorem l1Lookup_none_mono {st : GarmentState} {digest : String} {t1 t2 : Nat}
    (h : l1Lookup st digest t1 = none) (hle : t1 ≤ t2) :
    l1Lookup st digest t2 = none := by
  unfold l1Lookup at h ⊢
  cases hl : st.l1 digest with
  | none => rfl
  | some ep =>
    rw [hl] at h
    dsimp only at h ⊢
    by_cases h1 : t1 < ep.1
    · rw [if_pos h1] at h; simp at h
    · rw [if_neg (by omega)]

theorem afterLockPhase_remoteSet (env : GarmentEnv) (o : GarmentOracle) (digest : String)
    (ra : Bool) (clock : Nat) (st : GarmentState)
    (h : GEvent.remoteSet ∈ (afterLockPhase env o digest ra clock st).2.2) :
    ra = true ∧ 0 < env.ttl := by
  unfold afterLockPhase at h
  cases hl1 : l1Lookup st digest clock with
  | some p => rw [hl1] at h; simp at h
  | none =>
    rw [hl1] at h
    dsimp only at h
    by_cases hr : ra = true
    · rw [if_pos hr] at h
      cases hg : o.recheckGet with
      | error u =>
        rw [hg] at h
        dsimp only at h
        rcases List.mem_cons.mp h with h1 | h1
        · simp at h1
        rcases List.mem_cons.mp h1 with h2 | h2
        · simp at h2
        · have := (computePhase_remoteSet_iff env o digest false clock st).mp h2
          simp at this
      | ok raw =>
        rw [hg] at h
        dsimp only at h
        cases hd : decodeCachePayload raw with
        | some p =>
          rw [hd] at h
          dsimp only at h
          by_cases ht : 0 < env.ttl
          · rw [if_pos ht] at h; simp at h
          · rw [if_neg ht] at h; simp at h
        | none =>
          rw [hd] at h
          dsimp only at h
          rcases List.mem_cons.mp h with h1 | h1
          · simp at h1
          · exact ⟨hr, ((computePhase_remoteSet_iff env o digest true clock st).mp h1).2⟩
    · rw [if_neg hr] at h
      have := (computePhase_remoteSet_iff env o digest false clock st).mp h
      simp at this

theorem lockAndComputePhase_remoteSet (env : GarmentEnv) (o : GarmentOracle)
    (digest : String) (ra0 : Bool) (t0 : Nat) (st : GarmentState)
    (h : GEvent.remoteSet ∈ (lockAndComputePhase env o digest ra0 t0 st).events) :
    ra0 = true ∧ 0 < env.ttl := by
  unfold lockAndComputePhase at h
  by_cases hr : ra0 = true
  · rw [if_pos hr] at h
    cases hac : o.lockAcquire with
    | error u =>
      rw [hac] at h
      dsimp only at h
      rcases List.mem_append.mp h with h1 | h1
      · rcases List.mem_append.mp h1 with h2 | h2
        · simp at h2
        · exact ⟨hr, (afterLockPhase_remoteSet env o digest false t0 st h2).2⟩
      · simp at h1
    | ok b =>
      rw [hac] at h
      cases b with
      | true =>
        dsimp only at h
        rcases List.mem_append.mp h with h1 | h1
        · rcases List.mem_append.mp h1 with h2 | h2
          · simp at h2
          · exact ⟨hr, (afterLockPhase_remoteSet env o digest true t0 st h2).2⟩
        · simp at h1
      | false =>
        dsimp only at h
        cases hw : (waitForRedisPayload o.waitRounds 0 env.lockWaitTicks).payload with
        | some p =>
          rw [hw] at h
          dsimp only at h
          by_cases ht : 0 < env.ttl
          · rw [if_pos ht] at h; simp at h
          · rw [if_neg ht] at h; simp at h
        | none =>
          rw [hw] at h
          dsimp only at h
          rcases List.mem_append.mp h with h1 | h1
          · rcases List.mem_append.mp h1 with h2 | h2
            · simp at h2
            · exact ⟨hr, (afterLockPhase_remoteSet env o digest true _ st h2).2⟩
          · simp at h1
  · rw [if_neg hr] at h
    dsimp only at h
    rcases List.mem_append.mp h with h1 | h1
    · rcases List.mem_append.mp h1 with h2 | h2
      · simp at h2
      · have := (afterLockPhase_remoteSet env o digest false t0 st h2).1
        simp at this
    · simp at h1

theorem classifyMain_remoteSet (env : GarmentEnv) (o : GarmentOracle)
    (digest : String) (t0 : Nat) (st : GarmentState)
    (h : GEvent.remoteSet ∈ (classifyMain env o digest t0 st).events) :
    o.redisAvailable = true ∧ 0 < env.ttl ∧ o.initialGet ≠ .error () := by
  unfold classifyMain at h
  by_cases hen : env.classifyEnabled = false
  · rw [if_pos hen] at h; simp at h
  · rw [if_neg hen] at h
    cases hl1 : l1Lookup st digest t0 with
    | some p => rw [hl1] at h; simp at h
    | none =>
      rw [hl1] at h
      dsimp only at h
      by_cases hra : o.redisAvailable = true
      · rw [if_pos hra] at h
        by_cases ht : 0 < env.ttl
        · rw [if_pos ht] at h
          cases hg : o.initialGet with
          | error u =>
            rw [hg] at h
            dsimp only at h
            rcases List.mem_cons.mp h with h1 | h1
            · simp at h1
            rcases List.mem_cons.mp h1 with h2 | h2
            · simp at h2
            · have := (lockAndComputePhase_remoteSet env o digest false t0 st h2).1
              simp at this
          | ok raw =>
            rw [hg] at h
            dsimp only at h
            exact ⟨hra, ht, fun hc => Except.noConfusion hc⟩
        · rw [if_neg ht] at h
          have := (lockAndComputePhase_remoteSet env o digest true t0 st h).2
          exact absurd this ht
      · rw [if_neg hra] at h
        have := (lockAndComputePhase_remoteSet env o digest false t0 st h).1
        simp at this

theorem classifyGarmentType_remoteSet (env : GarmentEnv) (o : GarmentOracle)
    (digest : String) (override : Option String) (t0 : Nat) (st : GarmentState)
    (h : GEvent.remoteSet ∈ (classifyGarmentType env o digest override t0 st).events) :
    o.redisAvailable = true ∧ 0 < env.ttl ∧ o.initialGet ≠ .error () := by
  unfold classifyGarmentType at h
  cases override with
  | none =>
    dsimp only at h
    exact classifyMain_remoteSet env o digest t0 st h
  | some ov =>
    dsimp only at h
    by_cases he : ov = ""
    · rw [if_pos he] at h
      dsimp only at h
      exact classifyMain_remoteSet env o digest t0 st h
    · rw [if_neg he] at h
      cases hn : normalizeGarmentType ov with
      | some n =>
        rw [hn] at h
        simp at h
      | none =>
        rw [hn] at h
        dsimp only at h
        exact classifyMain_remoteSet env o digest t0 st h

/-- Event `l1Write` accompanies every classifier run with a positive TTL
(computePhase writes the L1 entry). -/
theorem afterLockPhase_classifier_l1Write (env : GarmentEnv) (o : GarmentOracle)
    (digest : String) (ra : Bool) (clock : Nat) (st : GarmentState)
    (h : GEvent.classifierCall ∈ (afterLockPhase env o digest ra clock st).2.2)
    (ht : 0 < env.ttl) :
    GEvent.l1Write ∈ (afterLockPhase env o digest ra clock st).2.2 := by
  unfold afterLockPhase at h ⊢
  cases hl1 : l1Lookup st digest clock with
  | some p => rw [hl1] at h; simp at h
  | none =>
    rw [hl1] at h
    dsimp only at h ⊢
    by_cases hr : ra = true
    · rw [if_pos hr] at h ⊢
      cases hg : o.recheckGet with
      | error u =>
        rw [hg] at h
        dsimp only at h ⊢
        exact List.mem_cons_of_mem _ (List.mem_cons_of_mem _
          (computePhase_l1Write_mem env o digest false clock st ht))
      | ok raw =>
        rw [hg] at h
        dsimp only at h ⊢
        cases hd : decodeCachePayload raw with
        | some p =>
          rw [hd] at h
          dsimp only at h
          by_cases htt : 0 < env.ttl
          · rw [if_pos htt] at h; simp at h
          · rw [if_neg htt] at h; simp at h
        | none =>
          rw [hd] at h
          dsimp only at h ⊢
          exact List.mem_cons_of_mem _
            (computePhase_l1Write_mem env o digest true clock st ht)
    · rw [if_neg hr] at h ⊢
      exact computePhase_l1Write_mem env o digest false clock st ht

theorem lockAndComputePhase_classifier_l1Write (env : GarmentEnv) (o : GarmentOracle)
    (digest : String) (ra0 : Bool) (t0 : Nat) (st : GarmentState)
    (h : GEvent.classifierCall ∈ (lockAndComputePhase env o digest ra0 t0 st).events)
    (ht : 0 < env.ttl) :
    GEvent.l1Write ∈ (lockAndComputePhase env o digest ra0 t0 st).events := by
  unfold lockAndComputePhase at h ⊢
  by_cases hr : ra0 = true
  · rw [if_pos hr] at h ⊢
    cases hac : o.lockAcquire with
    | error u =>
      rw [hac] at h
      dsimp only at h ⊢
      rcases List.mem_append.mp h with h1 | h1
      · rcases List.mem_append.mp h1 with h2 | h2
        · simp at h2
        · rw [List.mem_append]
          left
          rw [List.mem_append]
          right
          exact afterLockPhase_classifier_l1Write env o digest false t0 st h2 ht
      · simp at h1
    | ok b =>
      rw [hac] at h
      cases b with
      | true =>
        dsimp only at h ⊢
        rcases List.mem_append.mp h with h1 | h1
        · rcases List.mem_append.mp h1 with h2 | h2
          · simp at h2
          · rw [List.mem_append]
            left
            rw [List.mem_append]
            right
            exact afterLockPhase_classifier_l1Write env o digest true t0 st h2 ht
        · simp at h1
      | false =>
        dsimp only at h ⊢
        cases hw : (waitForRedisPayload o.waitRounds 0 env.lockWaitTicks).payload with
        | some p =>
          rw [hw] at h
          dsimp only at h
          by_cases htt : 0 < env.ttl
          · rw [if_pos htt] at h; simp at h
          · rw [if_neg htt] at h; simp at h
        | none =>
          rw [hw] at h
          dsimp only at h ⊢
          rcases List.mem_append.mp h with h1 | h1
          · rcases List.mem_append.mp h1 with h2 | h2
            · simp at h2
            · rw [List.mem_append]
              left
              rw [List.mem_append]
              right
              exact afterLockPhase_classifier_l1Write env o digest true _ st h2 ht
          · simp at h1
  · rw [if_neg hr] at h ⊢
    dsimp only at h ⊢
    rcases List.mem_append.mp h with h1 | h1
    · rcases List.mem_append.mp h1 with h2 | h2
      · simp at h2
      · rw [List.mem_append]
        left
        rw [List.mem_append]
        right
        exact afterLockPhase_classifier_l1Write env o digest false t0 st h2 ht
    · simp at h1

theorem classifyMain_classifier_l1Write (env : GarmentEnv) (o : GarmentOracle)
    (digest : String) (t0 : Nat) (st : GarmentState)
    (h : GEvent.classifierCall ∈ (classifyMain env o digest t0 st).events)
    (ht : 0 < env.ttl) :
    GEvent.l1Write ∈ (classifyMain env o digest t0 st).events := by
  unfold classifyMain at h ⊢
  by_cases hen : env.classifyEnabled = false
  · rw [if_pos hen] at h; simp at h
  · rw [if_neg hen] at h ⊢
    cases hl1 : l1Lookup st digest t0 with
    | some p => rw [hl1] at h; simp at h
    | none =>
      rw [hl1] at h
      dsimp only at h ⊢
      by_cases hra : o.redisAvailable = true
      · rw [if_pos hra] at h ⊢
        by_cases htt : 0 < env.ttl
        · rw [if_pos htt] at h ⊢
          cases hg : o.initialGet with
          | error u =>
            rw [hg] at h
            dsimp only at h ⊢
            rcases List.mem_cons.mp h with h1 | h1
            · simp at h1
            rcases List.mem_cons.mp h1 with h2 | h2
            · simp at h2
            · exact List.mem_cons_of_mem _ (List.mem_cons_of_mem _
                (lockAndComputePhase_classifier_l1Write env o digest false t0 st h2 ht))
          | ok raw =>
            rw [hg] at h
            dsimp only at h ⊢
            cases hd : decodeCachePayload raw with
            | some p => rw [hd] at h; simp at h
            | none =>
              rw [hd] at h
              dsimp only at h ⊢
              rcases List.mem_cons.mp h with h1 | h1
              · simp at h1
              · exact List.mem_cons_of_mem _
                  (lockAndComputePhase_classifier_l1Write env o digest true t0 st h1 ht)
        · exact absurd ht htt
      · rw [if_neg hra] at h ⊢
        exact lockAndComputePhase_classifier_l1Write env o digest false t0 st h ht

theorem classifyGarmentType_classifier_l1Write (env : GarmentEnv) (o : GarmentOracle)
    (digest : String) (override : Option String) (t0 : Nat) (st : GarmentState)
    (h : GEvent.classifierCall ∈ (classifyGarmentType env o digest override t0 st).events)
    (ht : 0 < env.ttl) :
    GEvent.l1Write ∈ (classifyGarmentType env o digest override t0 st).events := by
  unfold classifyGarmentType at h ⊢
  cases override with
  | none =>
    dsimp only at h ⊢
    exact classifyMain_classifier_l1Write env o digest t0 st h ht
  | some ov =>
    dsimp only at h ⊢
    by_cases he : ov = ""
    · rw [if_pos he] at h ⊢
      dsimp only at h ⊢
      exact classifyMain_classifier_l1Write env o digest t0 st h ht
    · rw [if_neg he] at h ⊢
      cases hn : normalizeGarmentType ov with
      | some n => rw [hn] at h; simp at h
      | none =>
        rw [hn] at h
        dsimp only at h ⊢
        exact classifyMain_classifier_l1Write env o digest t0 st h ht

/-- Claim C3 is false on the code for the follower-timeout entry into the
fallback path: with the distributed lock held elsewhere and every poll a
miss, the wait returns null, yet `redis_client` is still live in the caller,
so the compute path issues a remote SET (garment.py:316-318). -/
theorem c3_counterexample :
    (waitForRedisPayload oracleFollower.waitRounds 0 envC.lockWaitTicks).payload = none ∧
      GEvent.remoteSet ∈
        (classifyGarmentType envC oracleFollower "abc123" none 0 stEmpty).events := by
  constructor
  · rfl
  · decide

/-- Claim C3 amended: the computed entry is written only to L1 — with no
remote SET — exactly when no remote handle was available (store unavailable,
or the initial remote GET raised and cleared the handle); every classifier
run with a positive TTL writes L1; but after a follower-wait timeout with
the handle still live the compute path issues a best-effort remote SET in
addition to the L1 write. -/
theorem c3_remote_write_discipline (env : GarmentEnv) (o : GarmentOracle)
    (digest : String) (override : Option String) (t0 : Nat) (st : GarmentState) :
    (o.redisAvailable = false →
        GEvent.remoteSet ∉ (classifyGarmentType env o digest override t0 st).events)
  ∧ (o.initialGet = .error () →
        GEvent.remoteSet ∉ (classifyGarmentType env o digest override t0 st).events)
  ∧ (GEvent.classifierCall ∈ (classifyGarmentType env o digest override t0 st).events →
        0 < env.ttl →
        GEvent.l1Write ∈ (classifyGarmentType env o digest override t0 st).events)
  ∧ (∀ raw raw2,
        env.classifyEnabled = true →
        l1Lookup st digest t0 = none →
        o.redisAvailable = true →
        0 < env.ttl →
        o.initialGet = .ok raw →
        decodeCachePayload raw = none →
        o.lockAcquire = .ok false →
        (waitForRedisPayload o.waitRounds 0 env.lockWaitTicks).payload = none →
        o.recheckGet = .ok raw2 →
        decodeCachePayload raw2 = none →
        GEvent.remoteSet ∈ (classifyGarmentType env o digest none t0 st).events) := by
  refine ⟨?_, ?_, ?_, ?_⟩
  · intro hra hmem
    obtain ⟨h1, -, -⟩ := classifyGarmentType_remoteSet env o digest override t0 st hmem
    rw [hra] at h1
    exact Bool.false_ne_true h1
  · intro hg hmem
    obtain ⟨-, -, h3⟩ := classifyGarmentType_remoteSet env o digest override t0 st hmem
    exact h3 hg
  · exact fun h ht => classifyGarmentType_classifier_l1Write env o digest override t0 st h ht
  · intro raw raw2 hen hl1 hra ht hg hd hac hw hrg hd2
    unfold classifyGarmentType
    dsimp only
    unfold classifyMain
    rw [if_neg (by simp [hen]), hl1]
    dsimp only
    rw [if_pos hra, if_pos ht, hg]
    dsimp only
    rw [hd]
    dsimp only
    refine List.mem_cons_of_mem _ ?_
    unfold lockAndComputePhase
    rw [if_pos rfl, hac]
    dsimp only
    rw [hw]
    dsimp only
    rw [List.append_assoc, List.mem_append]
    right
    rw [List.mem_append]
    left
    unfold afterLockPhase
    rw [l1Lookup_none_mono hl1 (Nat.le_add_right t0 _)]
    dsimp only
    rw [if_pos rfl, hrg]
    dsimp only
    rw [hd2]
    dsimp only
    refine List.mem_cons_of_mem _ ?_
    exact (computePhase_remoteSet_iff env o digest true _ st).mpr ⟨rfl, ht⟩

theorem c3_witness :
    GEvent.remoteSet ∉
      (classifyGarmentType envC oracleAllDown "abc123" none 0 stEmpty).events :=
  (c3_remote_write_discipline envC oracleAllDown "abc123" none 0 stEmpty).1 rfl

/-! ### The follower wait loop (C4) -/
theorem wait_skip (rounds : Nat → WaitRound) (i fuel : Nat)
    (hm : missRound (rounds i)) :
    waitForRedisPayload rounds i (fuel + 1) =
      ⟨(waitForRedisPayload rounds (i + 1) fuel).payload,
        .cacheRead :: .existsCheck :: (waitForRedisPayload rounds (i + 1) fuel).events,
        (waitForRedisPayload rounds (i + 1) fuel).ticks + 1⟩ := by
  obtain ⟨⟨raw, hraw, hdec⟩, hex⟩ := hm
  conv_lhs => unfold waitForRedisPayload
  dsimp only
  rw [hraw]
  dsimp only
  rw [hdec]
  dsimp only
  rw [hex]

theorem wait_hit_step (rounds : Nat → WaitRound) (i fuel : Nat)
    (raw : Option (Option JsonValue)) (p : JsonValue)
    (hraw : (rounds i).getRaw = .ok raw) (hdec : decodeCachePayload raw = some p) :
    waitForRedisPayload rounds i (fuel + 1) = ⟨some p, [.cacheRead], 0⟩ := by
  conv_lhs => unfold waitForRedisPayload
  dsimp only
  rw [hraw]
  dsimp only
  rw [hdec]

theorem wait_lockgone_step (rounds : Nat → WaitRound) (i fuel : Nat)
    (raw raw2 : Option (Option JsonValue))
    (hraw : (rounds i).getRaw = .ok raw) (hdec : decodeCachePayload raw = none)
    (hex : (rounds i).lockExists = .ok false)
    (hfin : (rounds i).finalGetRaw = .ok raw2) :
    waitForRedisPayload rounds i (fuel + 1) =
      ⟨decodeCachePayload raw2, [.cacheRead, .existsCheck, .finalRead], 0⟩ := by
  conv_lhs => unfold waitForRedisPayload
  dsimp only
  rw [hraw]
  dsimp only
  rw [hdec]
  dsimp only
  rw [hex]
  dsimp only
  rw [hfin]

theorem wait_hit_aux (rounds : Nat → WaitRound) :
    ∀ k fuel i raw p, (∀ j, j < k → missRound (rounds (i + j))) → k < fuel →
      (rounds (i + k)).getRaw = .ok raw → decodeCachePayload raw = some p →
      (waitForRedisPayload rounds i fuel).payload = some p := by
  intro k
  induction k with
  | zero =>
    intro fuel i raw p _ hk hraw hdec
    cases fuel with
    | zero => omega
    | succ f =>
      rw [Nat.add_zero] at hraw
      rw [wait_hit_step rounds i f raw p hraw hdec]
  | succ k' ih =>
    intro fuel i raw p hmiss hk hraw hdec
    cases fuel with
    | zero => omega
    | succ f =>
      have hm0 : missRound (rounds i) := by
        have := hmiss 0 (Nat.succ_pos k')
        rwa [Nat.add_zero] at this
      rw [wait_skip rounds i f hm0]
      dsimp only
      apply ih f (i + 1) raw p
      · intro j hj
        have := hmiss (j + 1) (by omega)
        rwa [show i + (j + 1) = i + 1 + j by ring] at this
      · omega
      · rwa [show i + 1 + k' = i + (k' + 1) by ring]
      · exact hdec

theorem wait_lockgone_aux (rounds : Nat → WaitRound) :
    ∀ k fuel i raw raw2, (∀ j, j < k → missRound (rounds (i + j))) → k < fuel →
      (rounds (i + k)).getRaw = .ok raw → decodeCachePayload raw = none →
      (rounds (i + k)).lockExists = .ok false →
      (rounds (i + k)).finalGetRaw = .ok raw2 →
      (waitForRedisPayload rounds i fuel).payload = decodeCachePayload raw2 ∧
        (waitForRedisPayload rounds i fuel).events.count WEvent.finalRead = 1 := by
  intro k
  induction k with
  | zero =>
    intro fuel i raw raw2 _ hk hraw hdec hex hfin
    cases fuel with
    | zero => omega
    | succ f =>
      rw [Nat.add_zero] at hraw hex hfin
      rw [wait_lockgone_step rounds i f raw raw2 hraw hdec hex hfin]
      refine ⟨rfl, ?_⟩
      show List.count WEvent.finalRead
        [WEvent.cacheRead, WEvent.existsCheck, WEvent.finalRead] = 1
      decide
  | succ k' ih =>
    intro fuel i raw raw2 hmiss hk hraw hdec hex hfin
    cases fuel with
    | zero => omega
    | succ f =>
      have hm0 : missRound (rounds i) := by
        have := hmiss 0 (Nat.succ_pos k')
        rwa [Nat.add_zero] at this
      rw [wait_skip rounds i f hm0]
      dsimp only
      have hrec := ih f (i + 1) raw raw2
        (fun j hj => by
          have := hmiss (j + 1) (by omega)
          rwa [show i + (j + 1) = i + 1 + j by ring] at this)
        (by omega)
        (by rwa [show i + 1 + k' = i + (k' + 1) by ring])
        hdec
        (by rwa [show i + 1 + k' = i + (k' + 1) by ring])
        (by rwa [show i + 1 + k' = i + (k' + 1) by ring])
      refine ⟨hrec.1, ?_⟩
      rw [List.count_cons, List.count_cons, hrec.2]
      decide

theorem wait_timeout_aux (rounds : Nat → WaitRound)
    (hmiss : ∀ j, missRound (rounds j)) :
    ∀ fuel i, (waitForRedisPayload rounds i fuel).payload = none := by
  intro fuel
  induction fuel with
  | zero => intro i; rfl
  | succ f ih =>
    intro i
    rw [wait_skip rounds i f (hmiss i)]
    exact ih (i + 1)

/-- Claim C4: In every execution of `_wait_for_redis_payload` (polling at
100 ms ticks, `fuel` ticks to the deadline): after any run of miss rounds,
(i) a decoded cached payload observed before the deadline is returned;
(ii) if the lock key is observed absent, exactly one final cache read runs
and its decoded result — possibly null — is returned; (iii) if every round
to the deadline is a miss with the lock held, null is returned. -/
theorem c4_wait_for_redis_payload_spec (rounds : Nat → WaitRound) (fuel : Nat) :
    (∀ k raw p, (∀ j, j < k → missRound (rounds j)) → k < fuel →
        (rounds k).getRaw = .ok raw → decodeCachePayload raw = some p →
        (waitForRedisPayload rounds 0 fuel).payload = some p)
  ∧ (∀ k raw raw2, (∀ j, j < k → missRound (rounds j)) → k < fuel →
        (rounds k).getRaw = .ok raw → decodeCachePayload raw = none →
        (rounds k).lockExists = .ok false →
        (rounds k).finalGetRaw = .ok raw2 →
        (waitForRedisPayload rounds 0 fuel).payload = decodeCachePayload raw2 ∧
          (waitForRedisPayload rounds 0 fuel).events.count WEvent.finalRead = 1)
  ∧ ((∀ j, missRound (rounds j)) →
        (waitForRedisPayload rounds 0 fuel).payload = none) := by
  refine ⟨?_, ?_, ?_⟩
  · intro k raw p hmiss hk hraw hdec
    apply wait_hit_aux rounds k fuel 0 raw p
    · intro j hj
      rw [Nat.zero_add]
      exact hmiss j hj
    · exact hk
    · rwa [Nat.zero_add]
    · exact hdec
  · intro k raw raw2 hmiss hk hraw hdec hex hfin
    apply wait_lockgone_aux rounds k fuel 0 raw raw2
    · intro j hj
      rw [Nat.zero_add]
      exact hmiss j hj
    · exact hk
    · rwa [Nat.zero_add]
    · exact hdec
    · rwa [Nat.zero_add]
    · rwa [Nat.zero_add]
  · intro hmiss
    exact wait_timeout_aux rounds hmiss fuel 0

theorem c4_witness :
    (waitForRedisPayload (fun _ => missWaitRound) 0 3).payload = none :=
  (c4_wait_for_redis_payload_spec (fun _ => missWaitRound) 3).2.2
    (fun _ => ⟨⟨none, rfl, rfl⟩, rfl⟩)

/-- Claim C5: A payload built by `_build_cache_payload` with a normalized type
(the only payloads this subsystem writes) decodes, via
`_decode_cache_payload`, to exactly the payload that was written:
encode-then-decode is the identity on self-written entries. `json.dumps`
then `json.loads` (Python stdlib, ASCII-compact separators) is the identity
on the JSON tree and is modelled as such. -/
theorem c5_encode_decode_roundtrip (gt origin : String) (ts : Int) (model : String)
    (h : gt ∈ validLabels) :
    decodeCachePayload (some (some (buildCachePayload gt origin ts model))) =
      some (buildCachePayload gt origin ts model) := by
  have hnorm : normalizeGarmentType gt = some gt := by
    simp only [validLabels, List.mem_cons, List.not_mem_nil, or_false] at h
    rcases h with h | h | h <;> (subst h; decide)
  have hget : jsonGet (buildCachePayload gt origin ts model) "type" =
      some (.str gt) := rfl
  have hset : jsonSet (buildCachePayload gt origin ts model) "type" (.str gt) =
      buildCachePayload gt origin ts model := rfl
  unfold decodeCachePayload
  dsimp only
  rw [hget]
  dsimp only
  rw [hnorm]
  dsimp only
  rw [hset]

theorem c5_witness :
    decodeCachePayload (some (some (buildCachePayload "full" "classifier" 1700000000
        "gemini-2.5-flash-image-preview"))) =
      some (buildCachePayload "full" "classifier" 1700000000
        "gemini-2.5-flash-image-preview") :=
  c5_encode_decode_roundtrip "full" "classifier" 1700000000
    "gemini-2.5-flash-image-preview" (by decide)

/-- Claim C8: For a fixed digest and namespace, distinct version strings give
distinct value cache keys, so a GET under one version never observes a value
stored (`SET`) under the other. -/
theorem c8_cache_key_version_isolation (ns v1 v2 digest : String) (h : v1 ≠ v2) :
    cache_key ns v1 digest ≠ cache_key ns v2 digest
  ∧ ∀ (α : Type) (store : String → Option α) (val : α),
      storeSet store (cache_key ns v1 digest) val (cache_key ns v2 digest) =
        store (cache_key ns v2 digest) := by
  have hne : cache_key ns v1 digest ≠ cache_key ns v2 digest := by
    intro heq
    apply h
    have hdata := congrArg String.data heq
    unfold cache_key at hdata
    simp only [String.data_append, List.append_assoc] at hdata
    have h1 := List.append_cancel_left hdata
    have h2 := List.append_cancel_left h1
    have h3 : v1.data = v2.data := by
      have h4 : v1.data ++ (":".data ++ digest.data) =
          v2.data ++ (":".data ++ digest.data) := h2
      exact List.append_cancel_right h4
    cases v1
    cases v2
    exact congrArg String.mk h3
  refine ⟨hne, ?_⟩
  intro α store val
  unfold storeSet
  rw [if_neg (Ne.symm hne)]

theorem c8_witness :
    cache_key "garment_type" "v1" "abc123" ≠ cache_key "garment_type" "v2" "abc123" :=
  (c8_cache_key_version_isolation "garment_type" "v1" "v2" "abc123" (by decide)).1

/-! ### The connection supervisor's backoff invariant (C6) -/
/-- Claim C6: In every reachable supervisor state, while the clock is before
`_redis_retry_at` (armed backoff), `get_redis_client` returns null without
making a connection attempt and leaves the state unchanged — in particular
no reachable state returns a live handle during an active backoff window —
and `record_redis_failure` re-arms the backoff and drops the handle. -/
theorem c6_backoff_invariant (cfg : RedisConfig) (s : RedisState)
    (hreach : RedisReachable cfg s) (now : Nat) (hb : backoffActive s now = true) :
    (∀ connectOk, getRedisClient cfg connectOk now s = (none, false, s))
  ∧ ∀ now', (recordRedisFailure cfg now' s).client = none ∧
      (recordRedisFailure cfg now' s).retryAt = some (now' + cfg.backoff) := by
  constructor
  · intro connectOk
    unfold getRedisClient
    by_cases h1 : cfg.urlConfigured
    · rw [if_neg (by simp [h1])]
      have hcl : s.client.isSome = false := by
        by_cases hc : s.client.isSome
        · have hr := redisReachable_inv hreach hc
          unfold backoffActive at hb
          rw [hr] at hb
          simp at hb
        · simpa using hc
      rw [if_neg (by simp [hcl]), if_pos hb]
    · rw [if_pos (by simpa using h1)]
  · intro now'
    exact ⟨rfl, rfl⟩

theorem c6_witness :
    getRedisClient ⟨true, 60⟩ true 5 (recordRedisFailure ⟨true, 60⟩ 0 ⟨none, none⟩) =
      (none, false, recordRedisFailure ⟨true, 60⟩ 0 ⟨none, none⟩) :=
  (c6_backoff_invariant ⟨true, 60⟩ _
    (RedisReachable.step RedisReachable.init (RedisStep.fail _ 0)) 5 (by decide)).1 true

/-! ### The shared remote-call helper (C7) -/
/-- Claim C7: `_redis_execute` with retry count R makes at most R+1 attempts;
after any run of failing attempts the first success — including a genuine
miss, a null result — is returned immediately with no further attempt; and
when every attempt fails, the last attempt's error is raised. -/
theorem c7_redis_execute_spec {ε α : Type} (outcomes : Nat → Except ε α) (retries : Nat) :
    (redisExecute outcomes retries).2 ≤ retries + 1
  ∧ (∀ i a, i ≤ retries → (∀ j, j < i → ∃ e, outcomes j = .error e) →
      outcomes i = .ok a → redisExecute outcomes retries = (.ok a, i + 1))
  ∧ ((∀ j, j ≤ retries → ∃ e, outcomes j = .error e) →
      redisExecute outcomes retries = (outcomes retries, retries + 1)) := by
  have hm : max 1 (retries + 1) = retries + 1 := by omega
  unfold redisExecute
  rw [hm]
  refine ⟨redisExecuteAux_count_le outcomes retries 0, ?_, ?_⟩
  · intro i a hi herr hok
    apply redisExecuteAux_first_ok outcomes i retries 0 a hi
    · intro j hj
      rw [Nat.zero_add]
      exact herr j hj
    · rwa [Nat.zero_add]
  · intro herr
    have := redisExecuteAux_all_fail outcomes retries 0 (fun j hj => by
      rw [Nat.zero_add]
      exact herr j hj)
    rwa [Nat.zero_add] at this

theorem c7_witness :
    redisExecute (fun j => if j = 0 then (.error "timeout" : Except String (Option Nat))
        else .ok (some 7)) 1 = (.ok (some 7), 2) :=
  (c7_redis_execute_spec
      (fun j => if j = 0 then (.error "timeout" : Except String (Option Nat))
        else .ok (some 7)) 1).2.1 1 (some 7) (by omega)
    (fun j hj => ⟨"timeout", by
      have hj0 : j = 0 := Nat.lt_one_iff.mp hj
      subst hj0
      rfl⟩)
    rfl

/-! ### Classifier failure caches the default label (C9) -/
theorem computePhase_classifier_err (env : GarmentEnv) (o : GarmentOracle)
    (digest : String) (ra : Bool) (clock : Nat) (st : GarmentState)
    (hcl : o.classifierText = .error ()) :
    (computePhase env o digest ra clock st).1 = "full"
  ∧ (0 < env.ttl → (computePhase env o digest ra clock st).2.1.l1 digest =
      some (clock + env.ttl,
        buildCachePayload "full" "classifier" o.wallTs env.model)) := by
  unfold computePhase classifierLabel
  rw [hcl]
  dsimp only
  refine ⟨rfl, fun ht => ?_⟩
  rw [if_pos ht]
  unfold writeL1
  dsimp only
  rw [if_pos rfl]

theorem afterLockPhase_classifier_err (env : GarmentEnv) (o : GarmentOracle)
    (digest : String) (ra : Bool) (clock : Nat) (st : GarmentState)
    (hcl : o.classifierText = .error ())
    (h : GEvent.classifierCall ∈ (afterLockPhase env o digest ra clock st).2.2) :
    (afterLockPhase env o digest ra clock st).1 = "full"
  ∧ (0 < env.ttl → (afterLockPhase env o digest ra clock st).2.1.l1 digest =
      some (clock + env.ttl,
        buildCachePayload "full" "classifier" o.wallTs env.model)) := by
  unfold afterLockPhase at h ⊢
  cases hl1 : l1Lookup st digest clock with
  | some p => rw [hl1] at h; simp at h
  | none =>
    rw [hl1] at h
    dsimp only at h ⊢
    by_cases hr : ra = true
    · rw [if_pos hr] at h ⊢
      cases hg : o.recheckGet with
      | error u =>
        dsimp only
        exact computePhase_classifier_err env o digest false clock st hcl
      | ok raw =>
        rw [hg] at h
        dsimp only at h ⊢
        cases hd : decodeCachePayload raw with
        | some p =>
          rw [hd] at h
          dsimp only at h
          by_cases htt : 0 < env.ttl
          · rw [if_pos htt] at h; simp at h
          · rw [if_neg htt] at h; simp at h
        | none =>
          dsimp only
          exact computePhase_classifier_err env o digest true clock st hcl
    · rw [if_neg hr]
      exact computePhase_classifier_err env o digest false clock st hcl

theorem lockAndComputePhase_classifier_err (env : GarmentEnv) (o : GarmentOracle)
    (digest : String) (ra0 : Bool) (t0 : Nat) (st : GarmentState)
    (hcl : o.classifierText = .error ())
    (h : GEvent.classifierCall ∈ (lockAndComputePhase env o digest ra0 t0 st).events) :
    (lockAndComputePhase env o digest ra0 t0 st).result = "full"
  ∧ (0 < env.ttl → (lockAndComputePhase env o digest ra0 t0 st).state.l1 digest =
      some ((lockAndComputePhase env o digest ra0 t0 st).clock + env.ttl,
        buildCachePayload "full" "classifier" o.wallTs env.model)) := by
  unfold lockAndComputePhase at h ⊢
  by_cases hr : ra0 = true
  · rw [if_pos hr] at h ⊢
    cases hac : o.lockAcquire with
    | error u =>
      rw [hac] at h
      dsimp only at h ⊢
      rcases List.mem_append.mp h with h1 | h1
      · rcases List.mem_append.mp h1 with h2 | h2
        · simp at h2
        · exact afterLockPhase_classifier_err env o digest false t0 st hcl h2
      · simp at h1
    | ok b =>
      rw [hac] at h
      cases b with
      | true =>
        dsimp only at h ⊢
        rcases List.mem_append.mp h with h1 | h1
        · rcases List.mem_append.mp h1 with h2 | h2
          · simp at h2
          · exact afterLockPhase_classifier_err env o digest true t0 st hcl h2
        · simp at h1
      | false =>
        dsimp only at h ⊢
        cases hw : (waitForRedisPayload o.waitRounds 0 env.lockWaitTicks).payload with
        | some p =>
          rw [hw] at h
          dsimp only at h
          by_cases htt : 0 < env.ttl
          · rw [if_pos htt] at h; simp at h
          · rw [if_neg htt] at h; simp at h
        | none =>
          rw [hw] at h
          dsimp only at h ⊢
          rcases List.mem_append.mp h with h1 | h1
          · rcases List.mem_append.mp h1 with h2 | h2
            · simp at h2
            · exact afterLockPhase_classifier_err env o digest true _ st hcl h2
          · simp at h1
  · rw [if_neg hr] at h ⊢
    dsimp only at h ⊢
    rcases List.mem_append.mp h with h1 | h1
    · rcases List.mem_append.mp h1 with h2 | h2
      · simp at h2
      · exact afterLockPhase_classifier_err env o digest false t0 st hcl h2
    · simp at h1

theorem classifyMain_classifier_err (env : GarmentEnv) (o : GarmentOracle)
    (digest : String) (t0 : Nat) (st : GarmentState)
    (hcl : o.classifierText = .error ())
    (h : GEvent.classifierCall ∈ (classifyMain env o digest t0 st).events) :
    (classifyMain env o digest t0 st).result = "full"
  ∧ env.classifyEnabled = true
  ∧ (0 < env.ttl → (classifyMain env o digest t0 st).state.l1 digest =
      some ((classifyMain env o digest t0 st).clock + env.ttl,
        buildCachePayload "full" "classifier" o.wallTs env.model)) := by
  unfold classifyMain at h ⊢
  by_cases hen : env.classifyEnabled = false
  · rw [if_pos hen] at h; simp at h
  · have hen' : env.classifyEnabled = true := by
      revert hen
      cases env.classifyEnabled <;> simp
    rw [if_neg hen] at h ⊢
    cases hl1 : l1Lookup st digest t0 with
    | some p => rw [hl1] at h; simp at h
    | none =>
      rw [hl1] at h
      dsimp only at h ⊢
      by_cases hra : o.redisAvailable = true
      · rw [if_pos hra] at h ⊢
        by_cases ht : 0 < env.ttl
        · rw [if_pos ht] at h ⊢
          cases hg : o.initialGet with
          | error u =>
            rw [hg] at h
            dsimp only at h ⊢
            rcases List.mem_cons.mp h with h1 | h1
            · simp at h1
            rcases List.mem_cons.mp h1 with h2 | h2
            · simp at h2
            · obtain ⟨ha, hb⟩ :=
                lockAndComputePhase_classifier_err env o digest false t0 st hcl h2
              exact ⟨ha, hen', hb⟩
          | ok raw =>
            rw [hg] at h
            dsimp only at h ⊢
            cases hd : decodeCachePayload raw with
            | some p => rw [hd] at h; simp at h
            | none =>
              rw [hd] at h
              dsimp only at h ⊢
              rcases List.mem_cons.mp h with h1 | h1
              · simp at h1
              · obtain ⟨ha, hb⟩ :=
                  lockAndComputePhase_classifier_err env o digest true t0 st hcl h1
                exact ⟨ha, hen', hb⟩
        · rw [if_neg ht] at h ⊢
          obtain ⟨ha, hb⟩ :=
            lockAndComputePhase_classifier_err env o digest true t0 st hcl h
          exact ⟨ha, hen', hb⟩
      · rw [if_neg hra] at h ⊢
        obtain ⟨ha, hb⟩ :=
          lockAndComputePhase_classifier_err env o digest false t0 st hcl h
        exact ⟨ha, hen', hb⟩

theorem classifyGarmentType_l1_hit (env : GarmentEnv) (o2 : GarmentOracle)
    (digest : String) (t2 : Nat) (st' : GarmentState) (p : JsonValue)
    (hen : env.classifyEnabled = true) (hl : l1Lookup st' digest t2 = some p) :
    classifyGarmentType env o2 digest none t2 st' = ⟨payloadType p, st', t2, []⟩ := by
  unfold classifyGarmentType
  dsimp only
  unfold classifyMain
  rw [if_neg (by simp [hen]), hl]

/-- Claim C9: When the external classifier raises (and the classifier is
actually invoked), `classify_garment_type` returns "full" and caches, in L1,
the default entry built by `_build_cache_payload` with origin "classifier"
and the full entry TTL; every subsequent call for the same digest while that
entry is unexpired returns "full" without invoking the classifier, whatever
the collaborators then do. -/
theorem c9_classifier_failure_caches_default (env : GarmentEnv) (o : GarmentOracle)
    (digest : String) (override : Option String) (t0 : Nat) (st : GarmentState)
    (hcl : o.classifierText = .error ())
    (h : GEvent.classifierCall ∈ (classifyGarmentType env o digest override t0 st).events) :
    (classifyGarmentType env o digest override t0 st).result = "full"
  ∧ (0 < env.ttl →
      (classifyGarmentType env o digest override t0 st).state.l1 digest =
          some ((classifyGarmentType env o digest override t0 st).clock + env.ttl,
            buildCachePayload "full" "classifier" o.wallTs env.model)
        ∧ ∀ (o2 : GarmentOracle) (t2 : Nat),
            t2 < (classifyGarmentType env o digest override t0 st).clock + env.ttl →
            (classifyGarmentType env o2 digest none t2
                (classifyGarmentType env o digest override t0 st).state).result = "full"
              ∧ GEvent.classifierCall ∉
                  (classifyGarmentType env o2 digest none t2
                    (classifyGarmentType env o digest override t0 st).state).events) := by
  have hmain : (classifyGarmentType env o digest override t0 st).result = "full"
      ∧ env.classifyEnabled = true
      ∧ (0 < env.ttl → (classifyGarmentType env o digest override t0 st).state.l1 digest =
          some ((classifyGarmentType env o digest override t0 st).clock + env.ttl,
            buildCachePayload "full" "classifier" o.wallTs env.model)) := by
    unfold classifyGarmentType at h ⊢
    cases override with
    | none =>
      dsimp only at h ⊢
      exact classifyMain_classifier_err env o digest t0 st hcl h
    | some ov =>
      dsimp only at h ⊢
      by_cases he : ov = ""
      · rw [if_pos he] at h ⊢
        dsimp only at h ⊢
        exact classifyMain_classifier_err env o digest t0 st hcl h
      · rw [if_neg he] at h ⊢
        cases hn : normalizeGarmentType ov with
        | some n => rw [hn] at h; simp at h
        | none =>
          rw [hn] at h
          dsimp only at h ⊢
          exact classifyMain_classifier_err env o digest t0 st hcl h
  obtain ⟨hfull, hen', hl1fact⟩ := hmain
  refine ⟨hfull, fun ht => ⟨hl1fact ht, fun o2 t2 ht2 => ?_⟩⟩
  have hlook : l1Lookup (classifyGarmentType env o digest override t0 st).state digest t2 =
      some (buildCachePayload "full" "classifier" o.wallTs env.model) := by
    unfold l1Lookup
    rw [hl1fact ht]
    dsimp only
    rw [if_pos ht2]
  rw [classifyGarmentType_l1_hit env o2 digest t2 _ _ hen' hlook]
  refine ⟨payloadType_buildCachePayload "full" "classifier" o.wallTs env.model, ?_⟩
  simp

theorem c9_witness :
    (classifyGarmentType envC oracleLeaderClsFail "abc123" none 0 stEmpty).result = "full" :=
  (c9_classifier_failure_caches_default envC oracleLeaderClsFail "abc123" none 0 stEmpty
    rfl (by decide)).1

/-! ### Normalization precedence (C10) -/
/-- Claim C10: On the stripped, lowercased input: an exact match of
"top"/"bottom"/"full" is returned first; otherwise one-piece keywords take
precedence over bottom keywords, which take precedence over top keywords
(so "shirt dress", containing both a top and a one-piece keyword, maps to
"full"); a string matching nothing returns null. -/
theorem c10_normalize_precedence (s : String) :
    (pyStripLower s = "top" ∨ pyStripLower s = "bottom" ∨ pyStripLower s = "full" →
        normalizeGarmentType s = some (pyStripLower s))
  ∧ (¬(pyStripLower s = "top" ∨ pyStripLower s = "bottom" ∨ pyStripLower s = "full") →
        onePieceKeywords.any (fun k => strContains (pyStripLower s) k) = true →
        normalizeGarmentType s = some "full")
  ∧ (¬(pyStripLower s = "top" ∨ pyStripLower s = "bottom" ∨ pyStripLower s = "full") →
        onePieceKeywords.any (fun k => strContains (pyStripLower s) k) = false →
        bottomKeywords.any (fun k => strContains (pyStripLower s) k) = true →
        normalizeGarmentType s = some "bottom")
  ∧ (¬(pyStripLower s = "top" ∨ pyStripLower s = "bottom" ∨ pyStripLower s = "full") →
        onePieceKeywords.any (fun k => strContains (pyStripLower s) k) = false →
        bottomKeywords.any (fun k => strContains (pyStripLower s) k) = false →
        topKeywords.any (fun k => strContains (pyStripLower s) k) = true →
        normalizeGarmentType s = some "top")
  ∧ (¬(pyStripLower s = "top" ∨ pyStripLower s = "bottom" ∨ pyStripLower s = "full") →
        onePieceKeywords.any (fun k => strContains (pyStripLower s) k) = false →
        bottomKeywords.any (fun k => strContains (pyStripLower s) k) = false →
        topKeywords.any (fun k => strContains (pyStripLower s) k) = false →
        normalizeGarmentType s = none)
  ∧ normalizeGarmentType "shirt dress" = some "full" := by
  unfold normalizeGarmentType
  dsimp only
  refine ⟨?_, ?_, ?_, ?_, ?_, by decide⟩
  · intro hex
    rw [if_pos hex]
  · intro hex hone
    rw [if_neg hex, if_pos hone]
  · intro hex hone hbot
    rw [if_neg hex, if_neg (by simp [hone]), if_pos hbot]
  · intro hex hone hbot htop
    rw [if_neg hex, if_neg (by simp [hone]), if_neg (by simp [hbot]), if_pos htop]
  · intro hex hone hbot htop
    rw [if_neg hex, if_neg (by simp [hone]), if_neg (by simp [hbot]),
      if_neg (by simp [htop])]

theorem c10_witness : normalizeGarmentType "shirt dress" = some "full" :=
  (c10_normalize_precedence "shirt dress").2.1 (by decide) (by decide)

end VintedBoost
